import Mathlib

/-!
Verification development for the SmartBuys optimizer engine.

All JavaScript numbers are modelled as exact rationals (`ℚ`).  Decimal
literals from the source (`0.0067`, `4.33`, `1.2`, …) are embedded as the
exact rationals they denote.  `Math.round` rounds half-up toward `+∞`,
which on `ℚ` is `⌊q + 1/2⌋`.  JavaScript truthiness on a number `x`
(`!x`) is modelled as `x = 0`; fields whose `NaN`/missing behaviour is
observable are modelled as `Option ℚ` (`none` = absent/`NaN`).
Exceptions (`throw new Error`) are modelled with `Except String`.

The four rational-arithmetic primitives are restored to their default
reducibility so that concrete witnesses evaluate with `decide`; every
proof still goes through the kernel unchanged.
-/

set_option allowUnsafeReducibility true
attribute [local semireducible] Rat.add Rat.mul Rat.sub Rat.div Rat.inv Rat.ofScientific

namespace SmartBuys

/-- Kernel-computable floor of a rational (`⌊q⌋ = q.num / q.den`). -/
def qfloor (q : ℚ) : ℤ := q.num / q.den

/-- Kernel-computable ceiling of a rational. -/
def qceil (q : ℚ) : ℤ := -qfloor (-q)

/-- `Math.round` (JavaScript): round half-up toward positive infinity. -/
def jsRound (q : ℚ) : ℤ := qfloor (q + 1/2)

/-- `round(value, decimals)` from `utils/maths.js`:
`Math.round(value * 10^d) / 10^d`. -/
def round (q : ℚ) (d : ℕ) : ℚ := (jsRound (q * (10 : ℚ) ^ d) : ℚ) / (10 : ℚ) ^ d

/-- Two-decimal currency rounding, the pervasive `round(x, 2)`. -/
def round2 (q : ℚ) : ℚ := round q 2

/-- `safeDivide` from `utils/maths.js`: `0` when the denominator is `0`. -/
def safeDivide (a b : ℚ) : ℚ := if b = 0 then 0 else a / b

/-- A rational that is an integer number of hundredths (the form every
2-decimal-rounded currency amount has). -/
def Cent (q : ℚ) : Prop := ∃ k : ℤ, q = (k : ℚ) / 100

/-! ## Churn model (`churnService.js`) -/

def DAYS_PER_MONTH : ℚ := 30

def WEEKS_PER_MONTH : ℚ := 433/100

/-- `computeDailySales(monthlySales, sellerCount)`. -/
def computeDailySales (monthlySales sellerCount : ℚ) : ℚ :=
  if monthlySales ≤ 0 ∨ sellerCount ≤ 0 then 0
  else monthlySales / sellerCount / DAYS_PER_MONTH

/-- `computeDaysOfStock(units, dailySales)` — note: the source divides
directly, with no ceiling. -/
def computeDaysOfStock (units dailySales : ℚ) : ℚ :=
  if dailySales ≤ 0 then 0 else units / dailySales

/-- `computeChurnWeeks(leadDays, daysOfStock, payoutDays)`. -/
def computeChurnWeeks (leadDays daysOfStock payoutDays : ℚ) : ℚ :=
  (leadDays + daysOfStock + payoutDays) / 7

/-- `computeMonthlyROI(roi, churnWeeks)`. -/
def computeMonthlyROI (roi churnWeeks : ℚ) : ℚ :=
  if churnWeeks ≤ 0 then 0 else roi / churnWeeks * WEEKS_PER_MONTH

/-! ## Currency fee and freight multiplier (`freightService.js`) -/

/-- `computeCurrencyFee(costBSF, isUK)`: `0` for UK suppliers and for
non-positive `costBSF`, otherwise `round(costBSF * 0.0067, 2)`. -/
def computeCurrencyFee (costBSF : ℚ) (isUK : Bool) : ℚ :=
  if isUK = true ∨ costBSF ≤ 0 then 0 else round2 (costBSF * (67/10000))

/-- `computeFreightMultiplier(costBSF, freightCost, currencyFee)`. -/
def computeFreightMultiplier (costBSF freightCost currencyFee : ℚ) : ℚ :=
  if costBSF ≤ 0 then 1
  else round (1 + (freightCost + currencyFee) / costBSF) 4

/-- `computeLandedCostPerUnit(supplierPrice, freightMultiplier)`. -/
def computeLandedCostPerUnit (supplierPrice freightMultiplier : ℚ) : ℚ :=
  round2 (supplierPrice * freightMultiplier)

/-! ## Stable sorting (JavaScript `Array.prototype.sort`)

`Array.prototype.sort` is stable; a stable sort's output is uniquely
determined by the comparator, so insertion sort below produces exactly
the array JavaScript produces.  `lt q p = true` means the comparator
orders `q` strictly before `p`. -/

def stableInsert {α : Type} (lt : α → α → Bool) (p : α) : List α → List α
  | [] => [p]
  | q :: qs => if lt q p then q :: stableInsert lt p qs else p :: q :: qs

def stableSort {α : Type} (lt : α → α → Bool) : List α → List α
  | [] => []
  | p :: ps => stableInsert lt p (stableSort lt ps)

/-! ## Freight model (`freightService.js`) -/

structure Point where
  x : ℚ
  y : ℚ
deriving Repr, DecidableEq

structure Curve where
  freightMode : String
  useCBM : Bool
  points : List Point
deriving Repr, DecidableEq

structure ShipmentProduct where
  units : ℚ
  weightKg : ℚ
  caseSize : ℚ
  length : ℚ
  width : ℚ
  height : ℚ
deriving Repr, DecidableEq

structure SupplierInfo where
  name : String
  warehouse : String
  country : String
  freightMode : String
  packagingType : String
  packagingWeightPercent : ℚ
  moqGBP : ℚ
  isUK : Bool
deriving Repr, DecidableEq

structure FreightConfig where
  ratePerKG : ℚ
  ratePerCBM : ℚ
  minCharge : ℚ
  boxSurcharge : ℚ
  palletSurcharge : ℚ
  handlingFee : ℚ
  domesticUkRatePerBox : ℚ
deriving Repr, DecidableEq

/-- `computeTotalWeight(products, packagingWeightPercent)`: per product,
`ceil(units / caseSize) * weightKg` when `units > 0` and `weightKg > 0`
(`caseSize || 1`); scaled by `1 + pct` when `pct > 0`; rounded to 2
decimals. -/
def computeTotalWeight (products : List ShipmentProduct)
    (packagingWeightPercent : ℚ) : ℚ :=
  if products = [] then 0
  else
    let total := products.foldl (fun acc p =>
      let caseSize := if p.caseSize = 0 then 1 else p.caseSize
      if 0 < p.units ∧ 0 < p.weightKg then
        acc + (qceil (p.units / caseSize) : ℚ) * p.weightKg
      else acc) 0
    let total2 := if 0 < packagingWeightPercent
      then total * (1 + packagingWeightPercent) else total
    round2 total2

/-- `computeTotalCBM(products)`: per product,
`ceil(units / caseSize) * (L*W*H)/1e6` when `units, L, W, H > 0`;
rounded to 3 decimals. -/
def computeTotalCBM (products : List ShipmentProduct) : ℚ :=
  if products = [] then 0
  else
    let total := products.foldl (fun acc p =>
      let caseSize := if p.caseSize = 0 then 1 else p.caseSize
      if 0 < p.units ∧ 0 < p.length ∧ 0 < p.width ∧ 0 < p.height then
        acc + (qceil (p.units / caseSize) : ℚ) * (p.length * p.width * p.height / 1000000)
      else acc) 0
    round total 3

/-- JavaScript `String.prototype.toLowerCase`, written over the character
list so that it is kernel-computable (extensionally `String.toLower`). -/
def jsToLower (s : String) : String := String.mk (s.data.map Char.toLower)

/-- JavaScript `String.prototype.trim`, over the character list. -/
def jsTrim (s : String) : String :=
  String.mk (((s.data.dropWhile Char.isWhitespace).reverse.dropWhile
    Char.isWhitespace).reverse)

/-- Curve lookup predicate of `computeFreightFromCurve`:
`c.freightMode && c.freightMode.toLowerCase() === freightMode.toLowerCase()`. -/
def modeMatches (freightMode : String) (c : Curve) : Bool :=
  (c.freightMode != "") && (jsToLower c.freightMode == jsToLower freightMode)

/-- Comparator of the in-place `points.sort((a,b) => (a.x||0)-(b.x||0))`. -/
def pointLtX (q p : Point) : Bool := decide (q.x < p.x)

/-- The interpolation loop of `computeFreightFromCurve`: the first pair of
consecutive points bracketing `value` yields the interpolated freight. -/
def interpPoints (value : ℚ) : List Point → Option ℚ
  | p1 :: p2 :: rest =>
    if p1.x ≤ value ∧ value ≤ p2.x then
      some (round2 (p1.y + safeDivide (p2.y - p1.y) (p2.x - p1.x) * (value - p1.x)))
    else interpPoints value (p2 :: rest)
  | _ => none

/-- Replace the first curve accepted by the `find` predicate with the same
curve carrying `pts` — the shape of the in-place `curve.points.sort`. -/
def updateFirstMatch (freightMode : String) (pts : List Point) :
    List Curve → List Curve
  | [] => []
  | c :: cs =>
    if modeMatches freightMode c then { c with points := pts } :: cs
    else c :: updateFirstMatch freightMode pts cs

/-- `computeFreightFromCurve(weightKg, cbm, freightCurves, freightMode)`,
modelled with explicit state passing: the second component is the curves
array after the call (`curve.points.sort` mutates the matched curve's
points in place; every other path leaves the input untouched). -/
def computeFreightFromCurveMut (weightKg cbm : ℚ) (freightCurves : List Curve)
    (freightMode : String) : Option ℚ × List Curve :=
  if freightCurves = [] then (none, freightCurves)
  else
    match freightCurves.find? (modeMatches freightMode) with
    | none => (none, freightCurves)
    | some curve =>
      if curve.points = [] then (none, freightCurves)
      else
        let value := if curve.useCBM then cbm else weightKg
        if value ≤ 0 then (none, freightCurves)
        else
          let points := stableSort pointLtX curve.points
          let newCurves := updateFirstMatch freightMode points freightCurves
          let result : Option ℚ :=
            match points with
            | [] => none
            | p0 :: rest =>
              let plast := (p0 :: rest).getLast?.getD p0
              if value ≤ p0.x then some p0.y
              else if plast.x ≤ value then some plast.y
              else interpPoints value (p0 :: rest)
          (result, newCurves)

/-- The return value of `computeFreightFromCurve`. -/
def computeFreightFromCurve (weightKg cbm : ℚ) (freightCurves : List Curve)
    (freightMode : String) : Option ℚ :=
  (computeFreightFromCurveMut weightKg cbm freightCurves freightMode).1

/-- `computeFreightGeneric(weightKg, cbm, freightConfig, packagingType,
boxCount, palletCount)`. -/
def computeFreightGeneric (weightKg cbm : ℚ) (freightConfig : FreightConfig)
    (packagingType : String) (boxCount palletCount : ℚ) : ℚ :=
  let base := max (max (weightKg * freightConfig.ratePerKG)
    (cbm * freightConfig.ratePerCBM)) freightConfig.minCharge
  let withSurcharge :=
    if packagingType = "Box" ∨ packagingType = "CourierCandidate" then
      base + boxCount * freightConfig.boxSurcharge
    else if packagingType = "Pallet" then
      base + palletCount * freightConfig.palletSurcharge
    else base
  round2 (withSurcharge + freightConfig.handlingFee)

structure ShipmentResult where
  freightCost : ℚ
  method : String
  totalWeight : ℚ
  totalCBM : ℚ
  boxCount : ℚ
  palletCount : ℚ
deriving Repr, DecidableEq

/-- `computeShipment(products, supplierInfo, freightCurves, freightConfig)`.
A `null` `supplierInfo` is `none`; the `(supplierInfo && f) || default`
reads are the corresponding field reads with defaults. -/
def computeShipment (products : List ShipmentProduct)
    (supplierInfo : Option SupplierInfo) (freightCurves : List Curve)
    (freightConfig : FreightConfig) : ShipmentResult :=
  if products = [] then ⟨0, "none", 0, 0, 0, 0⟩
  else
    let pct := match supplierInfo with | some s => s.packagingWeightPercent | none => 0
    let freightMode := match supplierInfo with | some s => s.freightMode | none => ""
    let packagingType := match supplierInfo with | some s => s.packagingType | none => ""
    let isUK := match supplierInfo with | some s => s.isUK | none => false
    let totalWeight := computeTotalWeight products pct
    let totalCBM := computeTotalCBM products
    let boxCount : ℚ := (qceil (totalWeight / 20) : ℤ)
    let palletCount : ℚ := (qceil (totalCBM / (6/5)) : ℤ)
    let curveResult :=
      if isUK = false ∧ freightCurves ≠ [] ∧ freightMode ≠ "" then
        computeFreightFromCurve totalWeight totalCBM freightCurves freightMode
      else none
    let fc1 : ℚ := match curveResult with | some c => c | none => 0
    let m1 : String := match curveResult with | some _ => "regression" | none => "generic"
    let fc2 := if m1 = "generic" ∨ fc1 = 0 then
        computeFreightGeneric totalWeight totalCBM freightConfig packagingType
          boxCount palletCount
      else fc1
    if isUK = true ∧ freightConfig.domesticUkRatePerBox ≠ 0 then
      ⟨round2 (boxCount * freightConfig.domesticUkRatePerBox), "domestic_uk",
        totalWeight, totalCBM, boxCount, palletCount⟩
    else
      ⟨round2 fc2, m1, totalWeight, totalCBM, boxCount, palletCount⟩

/-! ## v1 regression freight lookup (`findRegressionCurve`) -/

/-- `normalize` from the v1 service: lowercase then trim. -/
def normalizeStr (s : String) : String := jsTrim (jsToLower s)

/-- A row of `Freight_training_data`: only the fields `findRegressionCurve`
reads.  `minKg`/`maxKg` are `cleanNumber(row.minKg || row['min kg'])`
results, `none` meaning `NaN` (missing or unparsable). -/
structure FreightRow where
  region : String
  mode : String
  packagingType : String
  minKg : Option ℚ
  maxKg : Option ℚ
deriving Repr, DecidableEq

/-- Desired packaging bucket: `Pallet`+`sea` → `Pallet`; `Pallet`+other →
`Any`; `box` → `Box`; else `Any`. -/
def desiredPackaging (modeNorm packagingNorm : String) : String :=
  if packagingNorm = "pallet" then (if modeNorm = "sea" then "Pallet" else "Any")
  else if packagingNorm = "box" then "Box"
  else "Any"

/-- The region/mode/packaging filter of the `findRegressionCurve` loop
(its three `continue` guards). -/
def rowMatches (regionNorm modeNorm desiredNorm : String) (row : FreightRow) : Bool :=
  ((regionNorm == "") || (normalizeStr row.region == regionNorm)) &&
  ((modeNorm == "") || (normalizeStr row.mode == modeNorm)) &&
  (normalizeStr row.packagingType == desiredNorm)

/-- The full match predicate for given raw inputs. -/
def findPred (region freightMode packagingType : String) : FreightRow → Bool :=
  rowMatches (normalizeStr region) (normalizeStr freightMode)
    (normalizeStr (desiredPackaging (normalizeStr freightMode)
      (normalizeStr packagingType)))

/-- `inMin` of the weight-range check (`NaN` bound always passes). -/
def inMinB (w : ℚ) (row : FreightRow) : Bool :=
  match row.minKg with | none => true | some mk => decide (mk ≤ w)

/-- `inMax` of the weight-range check. -/
def inMaxB (w : ℚ) (row : FreightRow) : Bool :=
  match row.maxKg with | none => true | some mk => decide (w ≤ mk)

/-- The weight lies in the row's `[minKg, maxKg]` range. -/
def inRangeB (w : ℚ) (row : FreightRow) : Bool := inMinB w row && inMaxB w row

/-- The row has a numeric `minKg` strictly above the weight (the fallback
tracking condition). -/
def belowMinB (w : ℚ) (row : FreightRow) : Bool :=
  match row.minKg with | none => false | some mk => decide (w < mk)

/-- Fallback accumulator update of the `findRegressionCurve` loop. -/
def updateFallback (w : ℚ) (row : FreightRow)
    (fb : Option (FreightRow × ℚ)) : Option (FreightRow × ℚ) :=
  match row.minKg with
  | none => fb
  | some mk =>
    if w < mk then
      match fb with
      | none => some (row, mk)
      | some (r0, m0) => if mk < m0 then some (row, mk) else some (r0, m0)
    else fb

/-- The scanning loop of `findRegressionCurve`: first in-range matching row
wins; otherwise the tracked lowest-`minKg` fallback is returned. -/
def findGo (w : ℚ) (pred : FreightRow → Bool) :
    List FreightRow → Option (FreightRow × ℚ) → Option FreightRow
  | [], fb => fb.map Prod.fst
  | row :: rest, fb =>
    if pred row then
      if inMinB w row && inMaxB w row then some row
      else findGo w pred rest (updateFallback w row fb)
    else findGo w pred rest fb

/-- `findRegressionCurve(freightCurves, region, freightMode,
packagingType, chargeableWeightKg)` from the v1 service. -/
def findRegressionCurve (freightCurves : List FreightRow)
    (region freightMode packagingType : String) (chargeableWeightKg : ℚ) :
    Option FreightRow :=
  if freightCurves = [] then none
  else findGo chargeableWeightKg (findPred region freightMode packagingType)
    freightCurves none

/-! ## Allocator (`allocatorService.js`) -/

structure ChurnConfig where
  leadDays : ℚ
  payoutDays : ℚ
deriving Repr, DecidableEq

/-- A preprocessed product of the v3 engine (the records built in STEP 1
of `generateWSPlanV3`).  Dimension fields may be `null` (`none`); all
downstream reads go through `|| 0`. -/
structure EngineProduct where
  asin : String
  supplierKey : String
  supplierName : String
  itemName : String
  supplierPrice : ℚ
  amazonPrice : ℚ
  amazonFees : ℚ
  vatPerUnit : ℚ
  profitPerUnitBSF : ℚ
  roiBSF : ℚ
  monthlySales : ℚ
  sellerCount : ℚ
  caseSize : ℚ
  length : Option ℚ
  width : Option ℚ
  height : Option ℚ
  weightKg : Option ℚ
  supplierInfo : Option SupplierInfo
  churnConfig : ChurnConfig
  codeLink : String
deriving Repr, DecidableEq

/-- One entry of `buildCaseSizeOptions`' result. -/
structure CaseOption where
  cases : ℕ
  units : ℚ
  costBSF : ℚ
deriving Repr, DecidableEq

/-- The `for (cases = 1; cases <= maxOptions; cases++)` loop of
`buildCaseSizeOptions`: `fuel` counts the remaining iterations; the loop
breaks as soon as `costBSF > maxBudget`. -/
def buildOptionsGo (caseSize caseCost maxBudget : ℚ) :
    ℕ → ℕ → List CaseOption
  | 0, _ => []
  | fuel + 1, cases =>
    let costBSF := (cases : ℚ) * caseCost
    if maxBudget < costBSF then []
    else
      ⟨cases, (cases : ℚ) * caseSize, round2 costBSF⟩ ::
        buildOptionsGo caseSize caseCost maxBudget fuel (cases + 1)

/-- `buildCaseSizeOptions(product, maxBudget)`. -/
def buildCaseSizeOptions (product : EngineProduct) (maxBudget : ℚ) :
    List CaseOption :=
  let caseSize := if product.caseSize = 0 then 1 else product.caseSize
  let supplierPrice := product.supplierPrice
  if supplierPrice ≤ 0 then []
  else
    let caseCost := supplierPrice * caseSize
    let maxCasesByBudget : ℤ := qfloor (maxBudget / caseCost)
    let dailySales := computeDailySales product.monthlySales product.sellerCount
    let maxUnitsBySales : ℚ :=
      if 0 < dailySales then ((qfloor (dailySales * 90) : ℤ) : ℚ)
      else (maxCasesByBudget : ℚ) * caseSize
    let maxCasesBySales : ℤ := qfloor (maxUnitsBySales / caseSize)
    let maxCases := min maxCasesByBudget maxCasesBySales
    let maxOptions := min maxCases 20
    buildOptionsGo caseSize caseCost maxBudget maxOptions.toNat 1

/-- A product row of a finished supplier bundle (the `.map` at the end of
`buildSupplierBundles`). -/
structure OutRow where
  asin : String
  itemName : String
  unitsToOrder : ℚ
  supplierPrice : ℚ
  amazonPrice : ℚ
  landedCostPerUnit : ℚ
  profitPerUnit : ℚ
  roi : ℚ
  monthlyROI : ℚ
  churnWeeks : ℚ
  totalCost : ℚ
  totalProfit : ℚ
  monthlySales : ℚ
  sellers : ℚ
  codeLink : String
deriving Repr, DecidableEq

/-- A supplier bundle as returned by `buildSupplierBundles` and consumed
by `optimizeGlobalBudget`. -/
structure SupplierBundle where
  supplierKey : String
  supplierName : String
  products : List OutRow
  totalCostASF : ℚ
  totalProfit : ℚ
  monthlyROI : ℚ
  freightCost : ℚ
  currencyFee : ℚ
deriving Repr, DecidableEq

/-- The allocation record returned by the budget optimizer. -/
structure Allocation where
  bundles : List SupplierBundle
  totalCostASF : ℚ
  totalProfit : ℚ
  monthlyROI : ℚ
  remainingBudget : ℚ
deriving Repr, DecidableEq

/-- The inner loop of `exhaustiveSearch` over the bits of `mask`: running
cost/profit/weighted-ROI and selected bundles, `none` when the running
cost would exceed the budget (`cost = Infinity` in the source). -/
def subsetEval (bundles : List SupplierBundle) (budget : ℚ) (mask : ℕ) :
    Option (ℚ × ℚ × ℚ × List SupplierBundle) :=
  bundles.enum.foldl (fun acc ib =>
    match acc with
    | none => none
    | some (cost, profit, wsum, sel) =>
      if mask.testBit ib.1 then
        if cost + ib.2.totalCostASF ≤ budget then
          some (cost + ib.2.totalCostASF, profit + ib.2.totalProfit,
            wsum + ib.2.monthlyROI * ib.2.totalCostASF, sel ++ [ib.2])
        else none
      else acc) (some (0, 0, 0, []))

/-- The mask loop of `exhaustiveSearch`: best `(score, selection, cost,
profit)` over all non-empty subsets, `none` when no feasible subset was
found (`bestCombination = null`). -/
def exhaustiveGo (bundles : List SupplierBundle) (budget : ℚ) :
    Option (ℚ × List SupplierBundle × ℚ × ℚ) :=
  (List.range (2 ^ bundles.length)).foldl (fun best mask =>
    if mask = 0 then best
    else
      match subsetEval bundles budget mask with
      | none => best
      | some (cost, profit, wsum, sel) =>
        if cost ≤ budget ∧ 0 < cost then
          let monthlyROI := if 0 < cost then wsum / cost else 0
          let score := monthlyROI * 1000 + cost / budget * 100
          match best with
          | none => some (score, sel, cost, profit)
          | some (bv, bsel, bc, bp) =>
            if bv < score then some (score, sel, cost, profit)
            else some (bv, bsel, bc, bp)
        else best) none

/-- `exhaustiveSearch(bundles, budget)`. -/
def exhaustiveSearch (bundles : List SupplierBundle) (budget : ℚ) : Allocation :=
  match exhaustiveGo bundles budget with
  | none => ⟨[], 0, 0, 0, budget⟩
  | some (_, sel, bestCost, bestProfit) =>
    let weightedMonthlyROI :=
      if 0 < bestCost then
        sel.foldl (fun s b => s + b.monthlyROI * b.totalCostASF) 0 / bestCost
      else 0
    ⟨sel, round2 bestCost, round2 bestProfit, round weightedMonthlyROI 4,
      round2 (budget - bestCost)⟩

/-- Comparator of `bundles.slice().sort((a,b) => b.monthlyROI - a.monthlyROI)`
over index-tagged bundles (indices model JavaScript object identity for
`selected.includes`). -/
def bundleRoiDesc (q p : ℕ × SupplierBundle) : Bool :=
  decide (p.2.monthlyROI < q.2.monthlyROI)

/-- One index `i` of the backward improvement pass of
`greedyOptimization`: look for a strictly more expensive, at least as
profitable, not-yet-selected replacement that fits in
`remaining + current cost`. -/
def improveStep (sorted : List (ℕ × SupplierBundle))
    (i : ℕ) (sel : List (ℕ × SupplierBundle)) (rem : ℚ) :
    List (ℕ × SupplierBundle) × ℚ :=
  match sel.get? i with
  | none => (sel, rem)
  | some cur =>
    let available := rem + cur.2.totalCostASF
    match sorted.find? (fun ib =>
      decide (ib.2.totalCostASF ≤ available) &&
      decide (cur.2.totalCostASF < ib.2.totalCostASF) &&
      decide (cur.2.monthlyROI ≤ ib.2.monthlyROI) &&
      !((sel.map Prod.fst).contains ib.1)) with
    | none => (sel, rem)
    | some repl => (sel.set i repl, available - repl.2.totalCostASF)

/-- The backward `for (i = selected.length - 1; i >= 0; i--)` improvement
pass. -/
def improveGo (sorted : List (ℕ × SupplierBundle)) :
    ℕ → List (ℕ × SupplierBundle) → ℚ → List (ℕ × SupplierBundle) × ℚ
  | 0, sel, rem => improveStep sorted 0 sel rem
  | i + 1, sel, rem =>
    let next := improveStep sorted (i + 1) sel rem
    improveGo sorted i next.1 next.2

/-- `selected.reduce((sum, b) => sum + (b.totalCostASF || 0), 0)`. -/
def costSum (l : List (ℕ × SupplierBundle)) : ℚ :=
  l.foldl (fun s ib => s + ib.2.totalCostASF) 0

/-- The greedy selection walk of `greedyOptimization`: take each sorted
bundle while it fits in the remaining budget. -/
def greedySelect (sorted : List (ℕ × SupplierBundle)) (budget : ℚ) :
    List (ℕ × SupplierBundle) × ℚ :=
  sorted.foldl (fun acc ib =>
    if ib.2.totalCostASF ≤ acc.2 then (acc.1 ++ [ib], acc.2 - ib.2.totalCostASF)
    else acc) (([] : List (ℕ × SupplierBundle)), budget)

/-- Selection then the gated improvement pass of `greedyOptimization`. -/
def greedyFinal (sorted : List (ℕ × SupplierBundle)) (budget : ℚ) :
    List (ℕ × SupplierBundle) × ℚ :=
  let seln := greedySelect sorted budget
  if seln.1 ≠ [] ∧ 0 < seln.2 then
    improveGo sorted (seln.1.length - 1) seln.1 seln.2
  else seln

/-- `greedyOptimization(bundles, budget)`. -/
def greedyOptimization (bundles : List SupplierBundle) (budget : ℚ) : Allocation :=
  let sorted := stableSort bundleRoiDesc bundles.enum
  let final := greedyFinal sorted budget
  if final.1 = [] then ⟨[], 0, 0, 0, budget⟩
  else
    let totalCostASF := costSum final.1
    let totalProfit := final.1.foldl (fun s ib => s + ib.2.totalProfit) 0
    let weightedMonthlyROI :=
      if 0 < totalCostASF then
        final.1.foldl (fun s ib => s + ib.2.monthlyROI * ib.2.totalCostASF) 0 /
          totalCostASF
      else 0
    ⟨final.1.map Prod.snd, round2 totalCostASF, round2 totalProfit,
      round weightedMonthlyROI 4, round2 (budget - totalCostASF)⟩

/-- `optimizeGlobalBudget(supplierBundles, budget)`: filter, then the
exhaustive path for at most 20 candidates, the greedy path otherwise. -/
def optimizeGlobalBudget (supplierBundles : List SupplierBundle) (budget : ℚ) :
    Allocation :=
  if supplierBundles = [] ∨ budget ≤ 0 then ⟨[], 0, 0, 0, budget⟩
  else
    let validBundles := supplierBundles.filter (fun b =>
      decide (0 < b.totalCostASF) && decide (b.totalCostASF ≤ budget))
    if validBundles = [] then ⟨[], 0, 0, 0, budget⟩
    else if validBundles.length ≤ 20 then exhaustiveSearch validBundles budget
    else greedyOptimization validBundles budget

/-! ## Supplier utilities (`utils/suppliers.js`, `utils/maths.js`) -/

/-- JavaScript `String.prototype.toUpperCase`, kernel-computable. -/
def jsToUpper (s : String) : String := String.mk (s.data.map Char.toUpper)

/-- `normalizeSupplierKey`: lowercase, strip everything outside `[a-z0-9]`,
trim. -/
def normalizeSupplierKey (s : String) : String :=
  jsTrim (String.mk ((jsToLower s).data.filter
    (fun c => c.isDigit || ('a' ≤ c && c ≤ 'z'))))

/-- One char-list is an initial segment of the other. -/
def matchesAt : List Char → List Char → Bool
  | [], _ => true
  | _ :: _, [] => false
  | c :: cs, d :: ds => c == d && matchesAt cs ds

/-- `String.prototype.includes`: the needle occurs somewhere in the
haystack. -/
def containsSub (needle : List Char) : List Char → Bool
  | [] => matchesAt needle []
  | d :: ds => matchesAt needle (d :: ds) || containsSub needle ds

/-- `(country || '').toLowerCase().includes('uk')`. -/
def countryIsUK (country : String) : Bool :=
  containsSub "uk".data (jsToLower country).data

/-- A supplier row as supplied by the caller. -/
structure SupplierRaw where
  name : String
  warehouse : String
  country : String
  freightMode : String
  packagingType : String
  packagingWeightPercent : ℚ
  moqGBP : ℚ
deriving Repr, DecidableEq

/-- Insert-or-overwrite into the supplier map (JavaScript object-key
assignment). -/
def setAssoc (m : List (String × SupplierInfo)) (k : String)
    (v : SupplierInfo) : List (String × SupplierInfo) :=
  if m.any (fun kv => kv.1 == k) then
    m.map (fun kv => if kv.1 == k then (k, v) else kv)
  else m ++ [(k, v)]

/-- `buildSupplierMap(suppliers)`. -/
def buildSupplierMap (suppliers : List SupplierRaw) :
    List (String × SupplierInfo) :=
  suppliers.foldl (fun m s =>
    if s.name = "" then m
    else
      let key := normalizeSupplierKey s.name
      if key = "" then m
      else setAssoc m key
        ⟨s.name, s.warehouse, s.country, s.freightMode, s.packagingType,
          s.packagingWeightPercent, s.moqGBP, countryIsUK s.country⟩) []

/-- `getSupplierInfo(supplierKey, supplierMap)`. -/
def getSupplierInfo (supplierKey : String)
    (m : List (String × SupplierInfo)) : Option SupplierInfo :=
  if supplierKey = "" then none
  else (m.find? (fun kv => kv.1 == normalizeSupplierKey supplierKey)).map Prod.snd

/-- `isUKSupplier(supplierKey, supplierMap)`. -/
def isUKSupplier (supplierKey : String)
    (m : List (String × SupplierInfo)) : Bool :=
  match getSupplierInfo supplierKey m with
  | some info => info.isUK
  | none => false

/-- `getSupplierMOQ(supplierKey, supplierMap)`. -/
def getSupplierMOQ (supplierKey : String)
    (m : List (String × SupplierInfo)) : ℚ :=
  match getSupplierInfo supplierKey m with
  | some info => if 0 < info.moqGBP then info.moqGBP else 0
  | none => 0

/-! ## Staged pipeline (`wsPlanV33Engine.js` and `ws/stages/*`)

Stage errors (`throw new Error`) are modelled with `Except String`.
`state.stageN || {}` with an absent slot is `Option`; `meta` (timestamps)
is not modelled.  `cleanNumber` applied to a field the caller supplied as
a number is the identity, and `NaN` results of missing fields are
modelled as `none`; where a missing numeric field would make JavaScript
propagate `NaN` through pure arithmetic (never a throw), the model reads
`0` instead — no claim below depends on those values. -/

/-- A raw pipeline product (an entry of `state.data.products`). -/
structure RawProduct where
  asin : String
  itemName : String
  supplier : String
  supplierName : String
  supplierKey : String
  supplierPrice : Option ℚ
  amazonPrice : Option ℚ
  amazonFees : Option ℚ
  vatPerUnit : Option ℚ
  monthlySales : Option ℚ
  profitPerUnitBSF : Option ℚ
  caseSize : Option ℚ
  weightKg : Option ℚ
  length : Option ℚ
  width : Option ℚ
  height : Option ℚ
deriving Repr, DecidableEq

/-- A cleaned product inside an MOQ block (`units`/`cases` are `0` until
the product is chosen). -/
structure StageProduct where
  asin : String
  itemName : String
  supplierKey : String
  supplierName : String
  supplierPrice : ℚ
  amazonPrice : Option ℚ
  amazonFees : Option ℚ
  vatPerUnit : Option ℚ
  profitPerUnitBSF : ℚ
  roiBSF : ℚ
  monthlyRoiBSF : ℚ
  monthlySales : ℚ
  caseSize : ℚ
  weightKg : Option ℚ
  length : Option ℚ
  width : Option ℚ
  height : Option ℚ
  units : ℚ
  cases : ℚ
deriving Repr, DecidableEq

/-- An MOQ block; the `estimated*`/`profitBSF`/`freightMethod` fields are
written by stage 2 (stage 1 leaves them `0`/`""`, matching the `|| 0`
reads of the absent JavaScript fields). -/
structure MoqBlock where
  supplierKey : String
  supplierName : String
  moqGBP : ℚ
  totalBSF : ℚ
  totalUnits : ℚ
  totalCases : ℚ
  products : List StageProduct
  estimatedFreight : ℚ
  freightMethod : String
  currencyFee : ℚ
  freightMultiplier : ℚ
  estimatedASF : ℚ
  profitBSF : ℚ
  estimatedMonthlyROI : ℚ
deriving Repr, DecidableEq

structure Stage1Totals where
  supplierCount : ℕ
  productCount : ℕ
  includedSuppliers : ℕ
  includedSkus : ℕ
  totalBSF : ℚ
deriving Repr, DecidableEq

structure Stage1Out where
  moqBlocks : List MoqBlock
  totals : Stage1Totals
deriving Repr, DecidableEq

structure CostTotals where
  totalBSF : ℚ
  totalASF : ℚ
  totalFreight : ℚ
  totalCurrencyFee : ℚ
deriving Repr, DecidableEq

structure Stage2Out where
  blocks : List MoqBlock
  totals : CostTotals
deriving Repr, DecidableEq

structure RankedSupplier where
  supplierKey : String
  supplierName : String
  moqBlock : MoqBlock
  estimatedMonthlyROI : ℚ
  estimatedASF : ℚ
deriving Repr, DecidableEq

structure Stage3Totals where
  supplierCount : ℕ
deriving Repr, DecidableEq

structure Stage3Out where
  rankedSuppliers : List RankedSupplier
  totals : Stage3Totals
deriving Repr, DecidableEq

structure Stage4Totals where
  budget : ℚ
  spentASF : ℚ
  remainingASF : ℚ
  selectedCount : ℕ
deriving Repr, DecidableEq

/-- Rejected entries are the ranked entry spread with a `reason` string. -/
structure Stage4Out where
  selectedSuppliers : List RankedSupplier
  rejectedSuppliers : List (RankedSupplier × String)
  totals : Stage4Totals
deriving Repr, DecidableEq

structure FreightOut where
  cost : ℚ
  method : String
  totalWeight : ℚ
  totalCBM : ℚ
  boxCount : ℚ
  palletCount : ℚ
deriving Repr, DecidableEq

structure Stage5Supplier where
  supplierKey : String
  supplierName : String
  block : MoqBlock
  freight : FreightOut
  currencyFee : ℚ
  freightMultiplier : ℚ
  exactASF : ℚ
  exactMonthlyROI : ℚ
  profitLand : ℚ
deriving Repr, DecidableEq

structure Stage5Out where
  suppliers : List Stage5Supplier
  totals : CostTotals
deriving Repr, DecidableEq

structure CaseItem where
  supplierKey : String
  supplierName : String
  asin : String
  itemName : String
  units : ℚ
  asfCost : ℚ
  profit : ℚ
  marginalRoi : ℚ
deriving Repr, DecidableEq

structure Stage6Totals where
  totalASF : ℚ
  totalUnits : ℚ
  caseCount : ℕ
deriving Repr, DecidableEq

structure Stage6Out where
  cases : List CaseItem
  totals : Stage6Totals
deriving Repr, DecidableEq

structure Stage7Metrics where
  totalASF : ℚ
  avgMarginalRoi : ℚ
deriving Repr, DecidableEq

structure Stage7Out where
  improved : Bool
  iterations : ℕ
  before : Stage7Metrics
  after : Stage7Metrics
deriving Repr, DecidableEq

structure Sku8 where
  asin : String
  itemName : String
  units : ℚ
  asfCost : ℚ
  profit : ℚ
  roi : ℚ
deriving Repr, DecidableEq

structure Supplier8 where
  supplierKey : String
  supplierName : String
  totalASF : ℚ
  totalUnits : ℚ
  expectedProfit : ℚ
  averageROI : ℚ
  skus : List Sku8
deriving Repr, DecidableEq

structure Summary8 where
  budget : ℚ
  budgetUsed : ℚ
  budgetRemaining : ℚ
  expectedProfit : ℚ
  averageROI : ℚ
deriving Repr, DecidableEq

structure Stage8Out where
  summary : Summary8
  suppliers : List Supplier8
deriving Repr, DecidableEq

structure DataSlot where
  suppliers : List SupplierRaw
  products : List RawProduct
  freightConfig : FreightConfig
deriving Repr, DecidableEq

structure Inputs where
  budget : ℚ
  freightCurves : List Curve
deriving Repr, DecidableEq

structure PipelineState where
  inputs : Inputs
  data : DataSlot
  stage1 : Option Stage1Out
  stage2 : Option Stage2Out
  stage3 : Option Stage3Out
  stage4 : Option Stage4Out
  stage5 : Option Stage5Out
  stage6 : Option Stage6Out
  stage7 : Option Stage7Out
  stage8 : Option Stage8Out
deriving Repr, DecidableEq

/-- `state.stage1.moqBlocks`, `[]` when absent. -/
def stage1Blocks (s : PipelineState) : List MoqBlock :=
  match s.stage1 with | some o => o.moqBlocks | none => []

/-- `state.stage2.blocks`, `[]` when absent. -/
def stage2Blocks (s : PipelineState) : List MoqBlock :=
  match s.stage2 with | some o => o.blocks | none => []

/-- `state.stage3.rankedSuppliers`, `[]` when absent. -/
def stage3Ranked (s : PipelineState) : List RankedSupplier :=
  match s.stage3 with | some o => o.rankedSuppliers | none => []

/-- `state.stage4.selectedSuppliers`, `[]` when absent. -/
def stage4Selected (s : PipelineState) : List RankedSupplier :=
  match s.stage4 with | some o => o.selectedSuppliers | none => []

/-- `state.stage5.suppliers`, `[]` when absent. -/
def stage5Suppliers (s : PipelineState) : List Stage5Supplier :=
  match s.stage5 with | some o => o.suppliers | none => []

/-- `state.stage6.cases`, `[]` when absent. -/
def stage6Cases (s : PipelineState) : List CaseItem :=
  match s.stage6 with | some o => o.cases | none => []

/-- `pRaw.supplierName || pRaw.supplier || ""` of stage 1. -/
def stage1Name (pRaw : RawProduct) : String :=
  if pRaw.supplierName ≠ "" then pRaw.supplierName else pRaw.supplier

/-- `normalizeSupplierKey(pRaw.supplierKey || supplierName)` of stage 1. -/
def stage1Key (pRaw : RawProduct) : String :=
  normalizeSupplierKey
    (if pRaw.supplierKey ≠ "" then pRaw.supplierKey else stage1Name pRaw)

/-- The cleaning/filtering step at the top of `stage1_moqBlocks`'s
`products.forEach`: `none` when the product is skipped. -/
def stage1Clean (pRaw : RawProduct) : Option StageProduct :=
  match pRaw.supplierPrice with
  | none => none
  | some supplierPrice =>
    if stage1Key pRaw = "" ∨ supplierPrice ≤ 0 then none
    else
      match pRaw.monthlySales with
      | none => none
      | some monthlySales =>
        if monthlySales ≤ 0 then none
        else
          let profitPerUnitBSF :=
            match pRaw.profitPerUnitBSF with
            | some v => v
            | none => pRaw.amazonPrice.getD 0 - pRaw.amazonFees.getD 0 -
                pRaw.vatPerUnit.getD 0 - supplierPrice
          let roiBSF := if 0 < supplierPrice then profitPerUnitBSF / supplierPrice
            else 0
          let caseSize := match pRaw.caseSize with
            | none => 1
            | some v => if v = 0 then 1 else v
          some ⟨pRaw.asin, pRaw.itemName, stage1Key pRaw, stage1Name pRaw,
            supplierPrice, pRaw.amazonPrice, pRaw.amazonFees, pRaw.vatPerUnit,
            profitPerUnitBSF, roiBSF, roiBSF, monthlySales, caseSize,
            pRaw.weightKg, pRaw.length, pRaw.width, pRaw.height, 0, 0⟩

/-- Group a list by a string key, preserving first-occurrence order and
within-group order (a JavaScript object of arrays). -/
def groupByKey {α : Type} (key : α → String) (ps : List α) :
    List (String × List α) :=
  ps.foldl (fun acc p =>
    if acc.any (fun kv => kv.1 == key p) then
      acc.map (fun kv => if kv.1 == key p then (kv.1, kv.2 ++ [p]) else kv)
    else acc ++ [(key p, [p])]) []

/-- The case-choosing walk of stage 1 (one case per product until the MOQ
is met; always at least one case of the top product when `moqGBP > 0`).
Accumulator: `(runningCost, totalUnits, totalCases, chosenProducts)`. -/
def stage1Choose (moqGBP : ℚ) (sortedProducts : List StageProduct) :
    ℚ × ℚ × ℚ × List StageProduct :=
  sortedProducts.foldl (fun acc p =>
    let caseSize := if p.caseSize = 0 then 1 else p.caseSize
    let caseCost := caseSize * p.supplierPrice
    if acc.2.2.2 = [] ∧ 0 < moqGBP then
      (acc.1 + caseCost, acc.2.1 + caseSize, acc.2.2.1 + 1,
        acc.2.2.2 ++ [{ p with units := caseSize, cases := 1 }])
    else if 0 < moqGBP ∧ moqGBP ≤ acc.1 then acc
    else
      (acc.1 + caseCost, acc.2.1 + caseSize, acc.2.2.1 + 1,
        acc.2.2.2 ++ [{ p with units := caseSize, cases := 1 }])) (0, 0, 0, [])

/-- Average `monthlyRoiBSF` of a block's products (the stage-1 block
ranking key). -/
def blockAvgRoi (b : MoqBlock) : ℚ :=
  b.products.foldl (fun s p => s + p.monthlyRoiBSF) 0 /
    max 1 (b.products.length : ℚ)

/-- The per-supplier block construction of stage 1's
`Object.keys(bySupplier).forEach` (`none` when no product was chosen). -/
def stage1BlockOf (supplierMap : List (String × SupplierInfo))
    (kv : String × List StageProduct) : Option MoqBlock :=
  let supplierInfo := getSupplierInfo kv.1 supplierMap
  let moqGBP := getSupplierMOQ kv.1 supplierMap
  let sortedProducts := stableSort
    (fun q p => decide (p.monthlyRoiBSF < q.monthlyRoiBSF)) kv.2
  let chosen := (stage1Choose moqGBP sortedProducts).2.2.2
  if chosen = [] then none
  else
    let totalBSF := chosen.foldl (fun s p => s + p.units * p.supplierPrice) 0
    let n1 := match supplierInfo with | some i => i.name | none => ""
    let supplierName := if n1 ≠ "" then n1
      else match chosen with | p0 :: _ => p0.supplierName | [] => ""
    some (⟨kv.1, supplierName, moqGBP, round2 totalBSF,
      (stage1Choose moqGBP sortedProducts).2.1,
      (stage1Choose moqGBP sortedProducts).2.2.1,
      chosen, 0, "", 0, 0, 0, 0, 0⟩ : MoqBlock)

/-- `stage1_moqBlocks(state)`. -/
def stage1_moqBlocks (state : PipelineState) : Except String PipelineState :=
  let products := state.data.products
  if products = [] then
    .error "[Stage 1] No products available in state.data.products."
  else
    let supplierMap := buildSupplierMap state.data.suppliers
    let cleaned := products.filterMap stage1Clean
    let bySupplier := groupByKey (fun p : StageProduct => p.supplierKey) cleaned
    let moqBlocks := bySupplier.filterMap (stage1BlockOf supplierMap)
    let sortedBlocks := stableSort
      (fun q p => decide (blockAvgRoi p < blockAvgRoi q)) moqBlocks
    let globalTotalBSF := moqBlocks.foldl (fun s b =>
      s + b.products.foldl (fun t p => t + p.units * p.supplierPrice) 0) 0
    let includedSkus := moqBlocks.foldl (fun s b => s + b.products.length) 0
    let out : Stage1Out := ⟨sortedBlocks,
      ⟨state.data.suppliers.length, products.length, moqBlocks.length,
        includedSkus, round2 globalTotalBSF⟩⟩
    .ok { state with stage1 := some out }

/-- Map a block product to the shape `freightService` expects (the stage-2
form, `units: p.units || p.totalUnits || 0`). -/
def toShipmentProduct (p : StageProduct) : ShipmentProduct :=
  ⟨p.units, p.weightKg.getD 0, if p.caseSize = 0 then 1 else p.caseSize,
    p.length.getD 0, p.width.getD 0, p.height.getD 0⟩

/-- `stage2_estimatedAsf(state)`. -/
def stage2_estimatedAsf (state : PipelineState) : Except String PipelineState :=
  let moqBlocks := stage1Blocks state
  if moqBlocks = [] then
    .error "[Stage 2] No MOQ blocks from stage1.moqBlocks."
  else
    let supplierMap := buildSupplierMap state.data.suppliers
    let freightConfig := state.data.freightConfig
    let freightCurves := state.inputs.freightCurves
    let step := fun (acc : List MoqBlock × ℚ × ℚ × ℚ × ℚ) (block : MoqBlock) =>
      let supplierInfo := getSupplierInfo block.supplierKey supplierMap
      let isUK := isUKSupplier block.supplierKey supplierMap
      let shipment := computeShipment (block.products.map toShipmentProduct)
        supplierInfo freightCurves freightConfig
      let costBSF := block.totalBSF
      let currencyFee := computeCurrencyFee costBSF isUK
      let freightMultiplier := computeFreightMultiplier costBSF
        shipment.freightCost currencyFee
      let estimatedASF := costBSF * freightMultiplier
      let profitBSF := block.products.foldl (fun s p =>
        if 0 < p.units then s + p.units * p.profitPerUnitBSF else s) 0
      let roi := if 0 < estimatedASF then profitBSF / estimatedASF else 0
      (acc.1 ++ [{ block with
          estimatedFreight := shipment.freightCost,
          freightMethod := shipment.method,
          currencyFee := currencyFee,
          freightMultiplier := freightMultiplier,
          estimatedASF := round2 estimatedASF,
          profitBSF := round2 profitBSF,
          estimatedMonthlyROI := round roi 4 }],
        acc.2.1 + costBSF, acc.2.2.1 + estimatedASF,
        acc.2.2.2.1 + shipment.freightCost, acc.2.2.2.2 + currencyFee)
    let r := moqBlocks.foldl step ([], 0, 0, 0, 0)
    let out : Stage2Out := ⟨r.1, ⟨round2 r.2.1, round2 r.2.2.1,
      round2 r.2.2.2.1, round2 r.2.2.2.2⟩⟩
    .ok { state with stage2 := some out }

/-- `stage3_rankSuppliers(state)`. -/
def stage3_rankSuppliers (state : PipelineState) : Except String PipelineState :=
  let blocks := stage2Blocks state
  if blocks = [] then
    .error "[Stage 3] No blocks found in stage2.blocks."
  else
    let rankedSuppliers := stableSort
      (fun q p => decide (p.estimatedMonthlyROI < q.estimatedMonthlyROI))
      (blocks.map (fun block =>
        (⟨block.supplierKey, block.supplierName, block,
          block.estimatedMonthlyROI, block.estimatedASF⟩ : RankedSupplier)))
    let out : Stage3Out := ⟨rankedSuppliers, ⟨rankedSuppliers.length⟩⟩
    .ok { state with stage3 := some out }

/-- `stage4_allocateBudget(state)`. -/
def stage4_allocateBudget (state : PipelineState) : Except String PipelineState :=
  let rankedSuppliers := stage3Ranked state
  let budget := state.inputs.budget
  if rankedSuppliers = [] then
    .error "[Stage 4] No ranked suppliers from stage3.rankedSuppliers."
  else if budget ≤ 0 then
    .error "[Stage 4] inputs.budget must be a positive number."
  else
    let r := rankedSuppliers.foldl (fun
        (acc : ℚ × List RankedSupplier × List (RankedSupplier × String)) entry =>
      let asf := entry.estimatedASF
      if asf ≤ 0 then (acc.1, acc.2.1, acc.2.2 ++ [(entry, "non_positive_asf")])
      else if asf ≤ acc.1 then (acc.1 - asf, acc.2.1 ++ [entry], acc.2.2)
      else (acc.1, acc.2.1, acc.2.2 ++ [(entry, "insufficient_budget")]))
      (budget, [], [])
    let out : Stage4Out := ⟨r.2.1, r.2.2,
      ⟨round2 budget, round2 (budget - r.1), round2 r.1, r.2.1.length⟩⟩
    .ok { state with stage4 := some out }

/-- The stage-5 product-to-shipment map (`units: p.units || 0`, cleaned
dimensions). -/
def toShipmentProduct5 (p : StageProduct) : ShipmentProduct :=
  ⟨p.units, p.weightKg.getD 0, if p.caseSize = 0 then 1 else p.caseSize,
    p.length.getD 0, p.width.getD 0, p.height.getD 0⟩

/-- The body of stage 5's `selected.forEach` for one selected entry:
`none` when the entry's block has no products (the `return` path). -/
def stage5Entry (supplierMap : List (String × SupplierInfo))
    (freightCurves : List Curve) (freightConfig : FreightConfig)
    (entry : RankedSupplier) : Option (Stage5Supplier × ℚ × ℚ × ℚ × ℚ) :=
  let block := entry.moqBlock
  if block.products = [] then none
  else
    let supplierInfo := getSupplierInfo entry.supplierKey supplierMap
    let isUK := isUKSupplier entry.supplierKey supplierMap
    let shipment := computeShipment (block.products.map toShipmentProduct5)
      supplierInfo freightCurves freightConfig
    let costBSF := if block.totalBSF = 0 then
        block.products.foldl (fun s p => s + p.units * p.supplierPrice) 0
      else block.totalBSF
    let currencyFee := computeCurrencyFee costBSF isUK
    let freightMultiplier := computeFreightMultiplier costBSF
      shipment.freightCost currencyFee
    let exactASF := costBSF * freightMultiplier
    let profitLand := block.products.foldl (fun s p =>
      s + p.units * (p.amazonPrice.getD 0 - p.amazonFees.getD 0 -
        p.vatPerUnit.getD 0 - p.supplierPrice * freightMultiplier)) 0
    let roi := if 0 < exactASF then profitLand / exactASF else 0
    some (⟨entry.supplierKey, entry.supplierName, block,
      ⟨shipment.freightCost, shipment.method, shipment.totalWeight,
        shipment.totalCBM, shipment.boxCount, shipment.palletCount⟩,
      currencyFee, freightMultiplier, round2 exactASF, round roi 4,
      round2 profitLand⟩,
      costBSF, exactASF, shipment.freightCost, currencyFee)

/-- `stage5_exactAsf(state)`. -/
def stage5_exactAsf (state : PipelineState) : Except String PipelineState :=
  let selected := stage4Selected state
  if selected = [] then
    .error "[Stage 5] No selected suppliers from stage4.selectedSuppliers."
  else
    let supplierMap := buildSupplierMap state.data.suppliers
    let r := selected.foldl (fun
        (acc : List Stage5Supplier × ℚ × ℚ × ℚ × ℚ) entry =>
      match stage5Entry supplierMap state.inputs.freightCurves
        state.data.freightConfig entry with
      | none => acc
      | some (se, costBSF, exactASF, freightCost, currencyFee) =>
        (acc.1 ++ [se], acc.2.1 + costBSF, acc.2.2.1 + exactASF,
          acc.2.2.2.1 + freightCost, acc.2.2.2.2 + currencyFee))
      ([], 0, 0, 0, 0)
    let out : Stage5Out := ⟨r.1, ⟨round2 r.2.1, round2 r.2.2.1,
      round2 r.2.2.2.1, round2 r.2.2.2.2⟩⟩
    .ok { state with stage5 := some out }

/-- The case items one stage-5 supplier's block contributes in stage 6
(`caseCount` copies of each product's case). -/
def stage6CasesOf (sup : Stage5Supplier) : List CaseItem :=
  sup.block.products.foldl (fun acc p =>
    if p.units ≤ 0 then acc
    else
      let caseSize := if p.caseSize = 0 then p.units else p.caseSize
      let caseCount := max 1 (qfloor (p.units / caseSize))
      let freightMultiplier := if sup.freightMultiplier = 0 then 1
        else sup.freightMultiplier
      let landedCostPerUnit := p.supplierPrice * freightMultiplier
      let profitPerUnit := p.amazonPrice.getD 0 - p.amazonFees.getD 0 -
        p.vatPerUnit.getD 0 - landedCostPerUnit
      let asfCost := caseSize * landedCostPerUnit
      let profit := caseSize * profitPerUnit
      acc ++ List.replicate caseCount.toNat
        ⟨sup.supplierKey, sup.supplierName, p.asin, p.itemName, caseSize,
          asfCost, profit, if 0 < asfCost then profit / asfCost else 0⟩) []

/-- The stage-6 removal loop (`while totalASF > budget && selected.length`):
operates on the reversed selection so that the JavaScript `pop` is the
head.  Returns `(reversedRemaining, removed, totalASF)`. -/
def stage6Drop (budget : ℚ) : List CaseItem → ℚ → List CaseItem →
    List CaseItem × List CaseItem × ℚ
  | [], total, removed => ([], removed, total)
  | c :: rest, total, removed =>
    if total ≤ budget then (c :: rest, removed, total)
    else stage6Drop budget rest (total - c.asfCost) (removed ++ [c])

/-- The stage-6 add-back walk (`while totalASF < budget && idx < length`,
skipping cases that would overshoot). -/
def stage6AddBack (budget : ℚ) : List CaseItem → List CaseItem → ℚ →
    List CaseItem × ℚ
  | [], sel, total => (sel, total)
  | c :: rest, sel, total =>
    if budget ≤ total then (sel, total)
    else if budget < total + c.asfCost then stage6AddBack budget rest sel total
    else stage6AddBack budget rest (sel ++ [c]) (total + c.asfCost)

/-- `stage6_reallocateCases(state)`. -/
def stage6_reallocateCases (state : PipelineState) :
    Except String PipelineState :=
  let suppliers := stage5Suppliers state
  let budget := state.inputs.budget
  if suppliers = [] then
    .error "[Stage 6] No suppliers in stage5.suppliers."
  else if budget ≤ 0 then
    .error "[Stage 6] inputs.budget must be a positive number."
  else
    let allCases := suppliers.foldl (fun acc sup => acc ++ stage6CasesOf sup) []
    if allCases = [] then
      .error "[Stage 6] No case-level items constructed from suppliers."
    else
      let sorted := stableSort
        (fun q p => decide (p.marginalRoi < q.marginalRoi)) allCases
      let total0 := sorted.foldl (fun s c => s + c.asfCost) 0
      let dropped := stage6Drop budget sorted.reverse total0 []
      let selected1 := dropped.1.reverse
      let remainingSorted := stableSort
        (fun q p => decide (p.marginalRoi < q.marginalRoi)) dropped.2.1
      let added := stage6AddBack budget remainingSorted selected1 dropped.2.2
      let totalUnits := added.1.foldl (fun s c => s + c.units) 0
      let out : Stage6Out := ⟨added.1,
        ⟨round2 added.2, totalUnits, added.1.length⟩⟩
      .ok { state with stage6 := some out }

/-- The stage-7 improvement loop.  Fuel is `MAX_ITERS - iterations`; every
iteration consumes the head of the (re-)sorted candidate list.  Result:
`(bestCases, bestTotalASF, bestAvgRoi, improved, iterations)`. -/
def stage7Go (budget : ℚ) : ℕ → List MoqBlock → List CaseItem → ℚ → ℚ →
    Bool → ℕ → List CaseItem × ℚ × ℚ × Bool × ℕ
  | 0, _, bestCases, bestASF, bestAvg, improved, iters =>
    (bestCases, bestASF, bestAvg, improved, iters)
  | _ + 1, [], bestCases, bestASF, bestAvg, improved, iters =>
    (bestCases, bestASF, bestAvg, improved, iters)
  | fuel + 1, c :: cs, bestCases, bestASF, bestAvg, improved, iters =>
    let iters' := iters + 1
    match stableSort (fun q p => decide (q.marginalRoi < p.marginalRoi))
        bestCases with
    | [] => (bestCases, bestASF, bestAvg, improved, iters')
    | worst :: _ =>
      match stableSort
          (fun q p => decide (p.estimatedMonthlyROI < q.estimatedMonthlyROI))
          (c :: cs) with
      | [] => (bestCases, bestASF, bestAvg, improved, iters')
      | bestBlock :: restCands =>
        let blockAsf := bestBlock.estimatedASF
        let newCases := bestCases.filter (fun cc =>
          !(cc.supplierKey == worst.supplierKey && cc.asin == worst.asin &&
            cc.units == worst.units))
        let newTotal0 := newCases.foldl (fun s cc => s + cc.asfCost) 0
        if budget < newTotal0 + blockAsf then
          stage7Go budget fuel restCands bestCases bestASF bestAvg improved
            iters'
        else
          let synth : CaseItem := ⟨bestBlock.supplierKey,
            bestBlock.supplierName, "BLOCK", "MOQ Block",
            bestBlock.totalUnits, blockAsf, bestBlock.profitBSF,
            if 0 < blockAsf then bestBlock.profitBSF / blockAsf else 0⟩
          let newCases2 := newCases ++ [synth]
          let newAvg := if 0 < newCases2.length then
              newCases2.foldl (fun s cc => s + cc.marginalRoi) 0 /
                (newCases2.length : ℚ)
            else 0
          if bestAvg < newAvg then
            stage7Go budget fuel restCands newCases2 (newTotal0 + blockAsf)
              newAvg true iters'
          else
            stage7Go budget fuel restCands bestCases bestASF bestAvg improved
              iters'

/-- `stage7_supplierSubstitution(state)`: writes only before/after metrics
into `state.stage7`. -/
def stage7_supplierSubstitution (state : PipelineState) :
    Except String PipelineState :=
  let currentCases := stage6Cases state
  let budget := state.inputs.budget
  if currentCases = [] then
    .error "[Stage 7] No case-level allocation in stage6.cases."
  else if budget ≤ 0 then
    .error "[Stage 7] inputs.budget must be a positive number."
  else
    let selectedKeys := (stage4Selected state).map (fun s => s.supplierKey)
    let candidateBlocks := (stage2Blocks state).filter (fun b =>
      !(selectedKeys.contains b.supplierKey))
    let baselineTotalASF := currentCases.foldl (fun s c => s + c.asfCost) 0
    let baselineAvgRoi := if 0 < currentCases.length then
        currentCases.foldl (fun s c => s + c.marginalRoi) 0 /
          (currentCases.length : ℚ)
      else 0
    let r := stage7Go budget 3 candidateBlocks currentCases baselineTotalASF
      baselineAvgRoi false 0
    let out : Stage7Out := ⟨r.2.2.2.1, r.2.2.2.2,
      ⟨round2 baselineTotalASF, round baselineAvgRoi 4⟩,
      ⟨round2 r.2.1, round r.2.2.1 4⟩⟩
    .ok { state with stage7 := some out }

/-- The per-supplier accumulation of stage 8 over `cases` (a JavaScript
object of mutable per-supplier records; `skus` entries are rounded at push
time, the running totals are not). -/
def stage8Group (cases : List CaseItem) : List (String × Supplier8) :=
  cases.foldl (fun acc c =>
    let key := if c.supplierKey = "" then "unknown" else c.supplierKey
    let roi := if 0 < c.asfCost then c.profit / c.asfCost else 0
    let sku : Sku8 := ⟨c.asin, c.itemName, c.units, round2 c.asfCost,
      round2 c.profit, round roi 4⟩
    if acc.any (fun kv => kv.1 == key) then
      acc.map (fun kv =>
        if kv.1 == key then
          (kv.1, { kv.2 with
            totalASF := kv.2.totalASF + c.asfCost,
            totalUnits := kv.2.totalUnits + c.units,
            expectedProfit := kv.2.expectedProfit + c.profit,
            skus := kv.2.skus ++ [sku] })
        else kv)
    else
      acc ++ [(key, ⟨key, c.supplierName, c.asfCost, c.units, c.profit, 0,
        [sku]⟩)]) []

/-- The whole stage-8 computation from `stage6.cases` and the budget: the
source reads nothing else. -/
def stage8Compute (cases : List CaseItem) (budget : ℚ) : Stage8Out :=
  let suppliersOut := (stage8Group cases).map (fun kv =>
    let s := kv.2
    let avgRoi := if 0 < s.totalASF then s.expectedProfit / s.totalASF else 0
    { s with
      totalASF := round2 s.totalASF,
      expectedProfit := round2 s.expectedProfit,
      averageROI := round avgRoi 4 })
  let budgetUsed := suppliersOut.foldl (fun s x => s + x.totalASF) 0
  let expectedProfit := suppliersOut.foldl (fun s x => s + x.expectedProfit) 0
  let averageROI := if 0 < budgetUsed then expectedProfit / budgetUsed else 0
  ⟨⟨round2 budget, round2 budgetUsed, round2 (budget - budgetUsed),
    round2 expectedProfit, round averageROI 4⟩, suppliersOut⟩

/-- `stage8_finalize(state)`. -/
def stage8_finalize (state : PipelineState) : Except String PipelineState :=
  let cases := stage6Cases state
  if cases = [] then
    .error "[Stage 8] No cases in stage6.cases to finalise."
  else
    .ok { state with stage8 := some (stage8Compute cases state.inputs.budget) }

/-! ## v3 engine (`wsPlanEngineV3.js`, STEP 1–5) and the bundle builder
(`allocatorService.js` `computeOptionMetrics`/`buildSupplierBundles`) -/

/-- `computeProfitPerUnitBSF(amazonPrice, amazonFees, supplierPrice,
vatPerUnit)`. -/
def computeProfitPerUnitBSF (amazonPrice amazonFees supplierPrice
    vatPerUnit : ℚ) : ℚ :=
  if amazonPrice = 0 ∨ supplierPrice = 0 then 0
  else amazonPrice - amazonFees - vatPerUnit - supplierPrice

/-- `computeProfitPerUnitASF(amazonPrice, amazonFees, landedCostPerUnit,
vatPerUnit)`. -/
def computeProfitPerUnitASF (amazonPrice amazonFees landedCostPerUnit
    vatPerUnit : ℚ) : ℚ :=
  if amazonPrice = 0 ∨ landedCostPerUnit = 0 then 0
  else amazonPrice - amazonFees - vatPerUnit - landedCostPerUnit

/-- `computeROI(profitPerUnit, costPerUnit)`. -/
def computeROI (profitPerUnit costPerUnit : ℚ) : ℚ :=
  safeDivide profitPerUnit costPerUnit

/-- `computeTotalProfit(units, profitPerUnit)`. -/
def computeTotalProfit (units profitPerUnit : ℚ) : ℚ := units * profitPerUnit

/-- The record `computeOptionMetrics` returns: the spread of the case
option plus all derived metrics. -/
structure OptionMetrics where
  cases : ℕ
  units : ℚ
  costBSF : ℚ
  landedCostPerUnit : ℚ
  profitPerUnit : ℚ
  roi : ℚ
  churnWeeks : ℚ
  monthlyROI : ℚ
  totalCostASF : ℚ
  totalProfit : ℚ
  freightCost : ℚ
  currencyFee : ℚ
  shippingAndFees : ℚ
deriving Repr, DecidableEq

/-- The shipment-product shape the engine builds from a product and a
unit count (`weightKg || 0`, `caseSize || 1`, dims `|| 0`). -/
def engineShipmentProduct (product : EngineProduct) (units : ℚ) :
    ShipmentProduct :=
  ⟨units, product.weightKg.getD 0,
    if product.caseSize = 0 then 1 else product.caseSize,
    product.length.getD 0, product.width.getD 0, product.height.getD 0⟩

/-- `computeOptionMetrics(product, option, supplierInfo, freightCurves,
freightConfig, churnConfig)`. -/
def computeOptionMetrics (product : EngineProduct) (opt : CaseOption)
    (supplierInfo : Option SupplierInfo) (freightCurves : List Curve)
    (freightConfig : FreightConfig) (churnConfig : ChurnConfig) :
    OptionMetrics :=
  let shipment := computeShipment [engineShipmentProduct product opt.units]
    supplierInfo freightCurves freightConfig
  let isUK := match supplierInfo with | some s => s.isUK | none => false
  let currencyFee := computeCurrencyFee opt.costBSF isUK
  let freightMultiplier := computeFreightMultiplier opt.costBSF
    shipment.freightCost currencyFee
  let landedCostPerUnit := computeLandedCostPerUnit product.supplierPrice
    freightMultiplier
  let totalCostASF := round2 (opt.units * landedCostPerUnit)
  let profitPerUnit := computeProfitPerUnitASF product.amazonPrice
    product.amazonFees landedCostPerUnit product.vatPerUnit
  let roi := computeROI profitPerUnit landedCostPerUnit
  let dailySales := computeDailySales product.monthlySales product.sellerCount
  let daysOfStock := computeDaysOfStock opt.units dailySales
  let churnWeeks := computeChurnWeeks churnConfig.leadDays daysOfStock
    churnConfig.payoutDays
  let monthlyROI := computeMonthlyROI roi churnWeeks
  let totalProfit := computeTotalProfit opt.units profitPerUnit
  ⟨opt.cases, opt.units, opt.costBSF, round2 landedCostPerUnit,
    round2 profitPerUnit, round roi 4, round2 churnWeeks, round monthlyROI 4,
    totalCostASF, round2 totalProfit, shipment.freightCost, currencyFee,
    round2 (shipment.freightCost + currencyFee)⟩

/-- A `{ product, option }` pair of `buildSupplierBundles`. -/
structure OptItem where
  product : EngineProduct
  option : OptionMetrics
deriving Repr, DecidableEq

/-- An internal (pre-output) bundle of `buildSupplierBundles`.  `costBSF`
is write-only in the source (undefined on the initial combination seed,
modelled as `0` there). -/
structure IBundle where
  products : List OptItem
  totalCostASF : ℚ
  totalProfit : ℚ
  monthlyROI : ℚ
  freightCost : ℚ
  currencyFee : ℚ
  costBSF : ℚ
deriving Repr, DecidableEq

/-- Best option of a product: the strict `>` scan starting from
`-Infinity` keeps the first maximum. -/
def bestByRoi (l : List OptItem) : Option OptItem :=
  l.foldl (fun best item =>
    match best with
    | none => some item
    | some b =>
      if b.option.monthlyROI < item.option.monthlyROI then some item
      else some b) none

/-- The combined-shipment map (`units: item.option.units`, product dims). -/
def itemShipmentProduct (item : OptItem) : ShipmentProduct :=
  engineShipmentProduct item.product item.option.units

/-- One step of the inner `for (j ...)` combination loop of
`buildSupplierBundles`. -/
def combineStep (supplierInfo : Option SupplierInfo)
    (freightCurves : List Curve) (freightConfig : FreightConfig)
    (maxBudget moq : ℚ) (current candidate : IBundle) : IBundle :=
  if current.totalCostASF + candidate.totalCostASF ≤ maxBudget then
    let combinedProducts := current.products ++ candidate.products
    let shipment := computeShipment (combinedProducts.map itemShipmentProduct)
      supplierInfo freightCurves freightConfig
    let costBSF := combinedProducts.foldl
      (fun s item => s + item.option.costBSF) 0
    let isUK := match supplierInfo with | some s => s.isUK | none => false
    let currencyFee := computeCurrencyFee costBSF isUK
    let totalCostASF := costBSF + shipment.freightCost + currencyFee
    let totalProfit := combinedProducts.foldl
      (fun s item => s + item.option.totalProfit) 0
    let monthlyROI := if 0 < totalCostASF then
        combinedProducts.foldl
          (fun s item => s + item.option.monthlyROI * item.option.totalCostASF)
          0 / totalCostASF
      else 0
    if moq ≤ totalCostASF ∧ current.monthlyROI * (95/100) ≤ monthlyROI then
      ⟨combinedProducts, round2 totalCostASF, round2 totalProfit,
        round monthlyROI 4, shipment.freightCost, currencyFee, costBSF⟩
    else current
  else current

/-- The outer `for (i < min(length, 5))` loop building multi-product
bundles from the sorted single-product bundles. -/
def buildMulti (supplierInfo : Option SupplierInfo)
    (freightCurves : List Curve) (freightConfig : FreightConfig)
    (maxBudget moq : ℚ) (singlesSorted : List IBundle) : List IBundle :=
  (List.range (min singlesSorted.length 5)).foldl (fun acc i =>
    match singlesSorted.get? i with
    | none => acc
    | some base =>
      let start : IBundle := ⟨base.products, base.totalCostASF,
        base.totalProfit, base.monthlyROI, base.freightCost,
        base.currencyFee, 0⟩
      let current := singlesSorted.enum.foldl (fun cur jc =>
        if jc.1 = i then cur
        else combineStep supplierInfo freightCurves freightConfig maxBudget
          moq cur jc.2) start
      if moq ≤ current.totalCostASF then acc ++ [current] else acc) []

/-- The per-item output row map at the end of `buildSupplierBundles`. -/
def toOutRow (item : OptItem) : OutRow :=
  ⟨item.product.asin, item.product.itemName, item.option.units,
    item.product.supplierPrice, item.product.amazonPrice,
    item.option.landedCostPerUnit, item.option.profitPerUnit,
    item.option.roi, item.option.monthlyROI, item.option.churnWeeks,
    item.option.totalCostASF, item.option.totalProfit,
    item.product.monthlySales, item.product.sellerCount,
    item.product.codeLink⟩

/-- The per-product option construction of `buildSupplierBundles`
(products with no options are filtered out). -/
def productOptionsOf (products : List EngineProduct)
    (supplierInfo : Option SupplierInfo) (freightCurves : List Curve)
    (freightConfig : FreightConfig) (churnConfig : ChurnConfig)
    (maxBudget : ℚ) : List (List OptItem) :=
  (products.map (fun product =>
    (buildCaseSizeOptions product maxBudget).map (fun o =>
      OptItem.mk product (computeOptionMetrics product o supplierInfo
        freightCurves freightConfig churnConfig)))).filter (fun l => l ≠ [])

/-- The single-product bundle of one product's option list (`none` when
the best option misses the MOQ). -/
def singleBundleOf (moq : ℚ) (l : List OptItem) : Option IBundle :=
  match bestByRoi l with
  | none => none
  | some best =>
    if moq ≤ best.option.totalCostASF then
      some (⟨[best], best.option.totalCostASF, best.option.totalProfit,
        best.option.monthlyROI, best.option.freightCost,
        best.option.currencyFee, best.option.costBSF⟩ : IBundle)
    else none

/-- `buildSupplierBundles(products, supplierInfo, freightCurves,
freightConfig, churnConfig, maxBudget, moq)`. -/
def buildSupplierBundles (products : List EngineProduct)
    (supplierInfo : Option SupplierInfo) (freightCurves : List Curve)
    (freightConfig : FreightConfig) (churnConfig : ChurnConfig)
    (maxBudget moq : ℚ) : List SupplierBundle :=
  match products with
  | [] => []
  | p0 :: _ =>
    let singlesSorted := stableSort
      (fun q p => decide (p.monthlyROI < q.monthlyROI))
      ((productOptionsOf products supplierInfo freightCurves freightConfig
        churnConfig maxBudget).filterMap (singleBundleOf moq))
    let multi := buildMulti supplierInfo freightCurves freightConfig maxBudget
      moq singlesSorted
    let allBundles := stableSort
      (fun q p => decide (p.monthlyROI < q.monthlyROI)) (singlesSorted ++ multi)
    (allBundles.take 8).map (fun bundle =>
      ⟨p0.supplierKey, p0.supplierName, bundle.products.map toOutRow,
        bundle.totalCostASF, bundle.totalProfit, bundle.monthlyROI,
        bundle.freightCost, bundle.currencyFee⟩)

/-! ### STEP 1 preprocessing (`generateWSPlanV3`) -/

/-- `normalize(str)` of `utils/maths`. -/
def normalize (str : String) : String := jsTrim (jsToLower str)

/-- One record of the dimensions lookup table. -/
structure DimRec where
  caseSize : Option ℚ
  length : Option ℚ
  width : Option ℚ
  height : Option ℚ
  weightKg : Option ℚ
deriving Repr, DecidableEq

/-- `dims = { byASIN, byEAN, byTitle }`. -/
structure DimsTable where
  byASIN : List (String × DimRec)
  byEAN : List (String × DimRec)
  byTitle : List (String × DimRec)
deriving Repr, DecidableEq

/-- `key && table[key]`. -/
def lookupDim (m : List (String × DimRec)) (k : String) : Option DimRec :=
  if k = "" then none else (m.find? (fun kv => kv.1 == k)).map Prod.snd

/-- `findDimensions(asin, ean, title, dims)`: ASIN, then EAN, then
normalised title. -/
def findDimensions (asin ean title : String) (dims : DimsTable) :
    Option DimRec :=
  match lookupDim dims.byASIN (jsTrim (jsToUpper asin)) with
  | some r => some r
  | none =>
    match lookupDim dims.byEAN (jsTrim ean) with
    | some r => some r
    | none => lookupDim dims.byTitle (normalize title)

/-- `getCaseSize(...)`: `Math.round(caseSize)` when a positive numeric
`caseSize` is on record, else `1`. -/
def getCaseSize (asin ean title : String) (dims : DimsTable) : ℚ :=
  match findDimensions asin ean title dims with
  | some r =>
    match r.caseSize with
    | some v => if 0 < v then ((jsRound v : ℤ) : ℚ) else 1
    | none => 1
  | none => 1

/-- The `{ length, width, height }` record of `getDimensions`. -/
structure DimsOut where
  length : Option ℚ
  width : Option ℚ
  height : Option ℚ
deriving Repr, DecidableEq

/-- `getDimensions(...)`. -/
def getDimensions (asin ean title : String) (dims : DimsTable) : DimsOut :=
  match findDimensions asin ean title dims with
  | none => ⟨none, none, none⟩
  | some r => ⟨r.length, r.width, r.height⟩

/-- `getWeight(...)`: the recorded weight when positive, else `null`. -/
def getWeight (asin ean title : String) (dims : DimsTable) : Option ℚ :=
  match findDimensions asin ean title dims with
  | some r =>
    match r.weightKg with
    | some v => if 0 < v then some v else none
    | none => none
  | none => none

/-- One entry of `churnSettings` (missing numeric fields are `none`). -/
structure ChurnRaw where
  irstDays : Option ℚ
  payoutDays : Option ℚ
deriving Repr, DecidableEq

/-- `getChurnConfig(supplierKey, churnSettings, supplierInfo)` — the
`supplierInfo` argument is unused in the source. -/
def getChurnConfig (supplierKey : String)
    (churnSettings : List (String × ChurnRaw)) : ChurnConfig :=
  match (churnSettings.find? (fun kv => kv.1 == supplierKey)).map Prod.snd with
  | some churn => ⟨churn.irstDays.getD 0, churn.payoutDays.getD 14⟩
  | none => ⟨0, 14⟩

/-- A raw engine input product (numeric fields `none` when missing, which
`cleanNumber` turns into `NaN`). -/
structure RawV3Product where
  asin : String
  supplier : String
  itemName : String
  ean : String
  codeLink : String
  supplierPrice : Option ℚ
  amazonPrice : Option ℚ
  amazonFees : Option ℚ
  vatPerUnit : Option ℚ
  monthlySales : Option ℚ
  sellers : Option ℚ
deriving Repr, DecidableEq

/-- The body of STEP 1's `products.forEach`: `none` when the product is
skipped (missing ASIN/supplier, non-positive or non-numeric price or
sales). -/
def processOne (supplierMap : List (String × SupplierInfo)) (dims : DimsTable)
    (churnSettings : List (String × ChurnRaw)) (product : RawV3Product) :
    Option EngineProduct :=
  let asin := jsTrim (jsToUpper product.asin)
  let supplierName := jsTrim product.supplier
  let supplierKey := normalizeSupplierKey supplierName
  if asin = "" ∨ supplierKey = "" then none
  else
    match product.supplierPrice with
    | none => none
    | some supplierPrice =>
      if supplierPrice ≤ 0 then none
      else
        match product.monthlySales with
        | none => none
        | some monthlySales =>
          if monthlySales ≤ 0 then none
          else
            let amazonPrice := product.amazonPrice.getD 0
            let amazonFees := product.amazonFees.getD 0
            let vatPerUnit := product.vatPerUnit.getD 0
            let sellerCount := max 1 (match product.sellers with
              | none => 1
              | some v => if v = 0 then 1 else v)
            let caseSize := getCaseSize asin product.ean product.itemName dims
            let dimsObj := getDimensions asin product.ean product.itemName dims
            let weightKg := getWeight asin product.ean product.itemName dims
            let profitPerUnitBSF := computeProfitPerUnitBSF amazonPrice
              amazonFees supplierPrice vatPerUnit
            let roiBSF := computeROI profitPerUnitBSF supplierPrice
            some ⟨asin, supplierKey, supplierName, jsTrim product.itemName,
              supplierPrice, amazonPrice, amazonFees, vatPerUnit,
              profitPerUnitBSF, roiBSF, monthlySales, sellerCount, caseSize,
              dimsObj.length, dimsObj.width, dimsObj.height, weightKg,
              getSupplierInfo supplierKey supplierMap,
              getChurnConfig supplierKey churnSettings,
              jsTrim product.codeLink⟩

/-- The engine's input record. -/
structure V3Input where
  budget : ℚ
  products : List RawV3Product
  dims : DimsTable
  suppliers : List SupplierRaw
  freightCurves : List Curve
  freightConfig : FreightConfig
  churnSettings : List (String × ChurnRaw)
deriving Repr, DecidableEq

/-- STEPs 1–5 of `generateWSPlanV3`: preprocessing, grouping, per-supplier
bundle building (budget capped at 5000), global optimization.  The
no-valid-products early return carries an empty allocation. -/
def generateWSPlanV3Allocation (input : V3Input) : Except String Allocation :=
  if input.budget ≤ 0 then .error "Budget is missing or invalid"
  else if input.products = [] then .error "Products array is missing or empty"
  else
    let supplierMap := buildSupplierMap input.suppliers
    let processedProducts := input.products.filterMap
      (processOne supplierMap input.dims input.churnSettings)
    if processedProducts = [] then .ok ⟨[], 0, 0, 0, input.budget⟩
    else
      let productsBySupplier := groupByKey
        (fun p : EngineProduct => p.supplierKey) processedProducts
      let supplierBudget := min input.budget 5000
      let allBundles := productsBySupplier.foldl (fun acc kv =>
        match kv.2 with
        | [] => acc
        | q0 :: _ =>
          acc ++ buildSupplierBundles kv.2 q0.supplierInfo input.freightCurves
            input.freightConfig q0.churnConfig supplierBudget
            (getSupplierMOQ kv.1 supplierMap)) []
      .ok (optimizeGlobalBudget allBundles input.budget)

/-- The bundles of the engine's allocation (empty on the error paths). -/
def engineBundles (input : V3Input) : List SupplierBundle :=
  match generateWSPlanV3Allocation input with
  | .ok a => a.bundles
  | .error _ => []

/-- The MOQ blocks stage 1 produces (empty on the error path). -/
def stage1OutBlocks (s : PipelineState) : List MoqBlock :=
  match stage1_moqBlocks s with
  | .ok s1 => stage1Blocks s1
  | .error _ => []

/-! ## Concrete fixture values for the closed instance theorems -/

/-- `Except` success test (a JavaScript call that does not throw). -/
def isOkE {ε α : Type} : Except ε α → Bool
  | .ok _ => true
  | .error _ => false

def fc0 : FreightConfig := ⟨0, 0, 0, 0, 0, 0, 0⟩

def rp0 : RawProduct := ⟨"A1", "Item", "Acme", "Acme", "", some 5, some 10,
  some 1, some 0, some 20, some 4, some 2, none, none, none, none⟩

def sp0 : StageProduct := ⟨"A1", "Item", "acme", "Acme", 5, some 10, some 1,
  some 0, 4, 4/5, 4/5, 20, 2, none, none, none, none, 2, 1⟩

def mb0 : MoqBlock :=
  ⟨"acme", "Acme", 0, 10, 2, 1, [sp0], 0, "", 0, 0, 5, 8, 1/2⟩

def rk0 : RankedSupplier := ⟨"acme", "Acme", mb0, 1/2, 5⟩

def s5a : Stage5Supplier :=
  ⟨"acme", "Acme", mb0, ⟨0, "generic", 0, 0, 0, 0⟩, 0, 1, 10, 0, 0⟩

def ci0 : CaseItem := ⟨"acme", "Acme", "A1", "Item", 2, 10, 8, 4/5⟩

/-- A state whose upstream slots are all empty (budget 1). -/
def psEmpty : PipelineState :=
  ⟨⟨1, []⟩, ⟨[], [], fc0⟩, none, none, none, none, none, none, none, none⟩

/-- A state with non-empty upstream slots everywhere but budget `-1`. -/
def psNeg : PipelineState :=
  ⟨⟨-1, []⟩, ⟨[], [rp0], fc0⟩,
    some ⟨[mb0], ⟨0, 1, 1, 1, 10⟩⟩,
    some ⟨[mb0], ⟨10, 10, 0, 0⟩⟩,
    some ⟨[rk0], ⟨1⟩⟩,
    some ⟨[rk0], [], ⟨-1, 5, -6, 1⟩⟩,
    some ⟨[s5a], ⟨10, 10, 0, 0⟩⟩,
    some ⟨[ci0], ⟨10, 2, 1⟩⟩, none, none⟩

/-- A state with one stage-6 case and positive budget. -/
def psRun : PipelineState :=
  ⟨⟨1, []⟩, ⟨[], [rp0], fc0⟩, none, none, none, none, none,
    some ⟨[ci0], ⟨10, 2, 1⟩⟩, none, none⟩

/-- A sibling of `psRun` sharing only the stage-6 cases and the budget. -/
def psRunB : PipelineState :=
  ⟨⟨1, []⟩, ⟨[], [], fc0⟩, some ⟨[mb0], ⟨0, 1, 1, 1, 10⟩⟩, none, none, none,
    none, some ⟨[ci0], ⟨10, 2, 1⟩⟩, none, none⟩

/-- A one-product engine input (budget 20, no supplier/dims/curves data). -/
def viW : V3Input :=
  ⟨20, [⟨"a1", "Acme", "Item", "", "", some 5, some 10, some 1, some 0,
    some 30, some 1⟩], ⟨[], [], []⟩, [], [], fc0, []⟩

/-- The MOQ block stage 1 builds from `psRun`'s single product. -/
def blkW : MoqBlock := ⟨"acme", "Acme", 0, 10, 2, 1, [sp0], 0, "", 0, 0, 0, 0, 0⟩

/-- The product row of the bundle the engine allocates for `viW`. -/
def rowW : OutRow := ⟨"A1", "Item", 1, 5, 10, 503/100, 397/100, 7893/10000,
  3987/2500, 107/50, 503/100, 397/100, 30, 1, ""⟩

/-- The first bundle of the engine's allocation for `viW`. -/
def bunW : SupplierBundle :=
  ⟨"acme", "Acme", [rowW], 503/100, 397/100, 3987/2500, 0, 3/100⟩

/-- A relation stating the post-call curve is the pre-call curve with its
points possibly permuted. -/
def curvePermRel (c c' : Curve) : Prop :=
  c'.freightMode = c.freightMode ∧ c'.useCBM = c.useCBM ∧ c'.points.Perm c.points

/-- The invariant the greedy path maintains: every selected entry comes
from the input bundles, and `remaining = budget - cost of selection ≥ 0`. -/
def GInv (bundles : List SupplierBundle) (budget : ℚ)
    (st : List (ℕ × SupplierBundle) × ℚ) : Prop :=
  (∀ ib ∈ st.1, ib.2 ∈ bundles) ∧ st.2 = budget - costSum st.1 ∧ 0 ≤ st.2

end SmartBuys

namespace SmartBuys

/-! ## Arithmetic and sorting helper lemmas -/

theorem qfloor_eq (q : ℚ) : qfloor q = ⌊q⌋ := Rat.floor_def.symm

theorem qceil_eq (q : ℚ) : qceil q = ⌈q⌉ := by
  unfold qceil
  rw [qfloor_eq, ← Int.ceil_neg, neg_neg]

theorem jsRound_eq (q : ℚ) : jsRound q = ⌊q + 1/2⌋ := qfloor_eq _

theorem jsRound_intCast (k : ℤ) : jsRound (k : ℚ) = k := by
  rw [jsRound_eq]
  rw [show ((k : ℚ) + 1/2) = (1/2 : ℚ) + k by ring, Int.floor_add_int]
  norm_num

theorem round2_cent {q : ℚ} (h : Cent q) : round2 q = q := by
  obtain ⟨k, rfl⟩ := h
  unfold round2 round
  have h1 : (k : ℚ) / 100 * (10 : ℚ) ^ 2 = (k : ℚ) := by norm_num
  rw [h1, jsRound_intCast]
  norm_num

theorem cent_add {a b : ℚ} (ha : Cent a) (hb : Cent b) : Cent (a + b) := by
  obtain ⟨j, rfl⟩ := ha
  obtain ⟨k, rfl⟩ := hb
  exact ⟨j + k, by push_cast; ring⟩

theorem cent_zero : Cent 0 := ⟨0, by norm_num⟩

theorem jsRound_mono {a b : ℚ} (h : a ≤ b) : jsRound a ≤ jsRound b := by
  rw [jsRound_eq, jsRound_eq]
  exact Int.floor_le_floor (by linarith)

theorem round_mono {a b : ℚ} (d : ℕ) (h : a ≤ b) : round a d ≤ round b d := by
  unfold round
  have hp : (0 : ℚ) < (10 : ℚ) ^ d := by positivity
  have h2 := jsRound_mono (mul_le_mul_of_nonneg_right h (le_of_lt hp))
  rw [div_le_div_iff₀ hp hp]
  have h3 : ((jsRound (a * (10:ℚ)^d) : ℚ)) ≤ ((jsRound (b * (10:ℚ)^d) : ℚ)) := by
    exact_mod_cast h2
  nlinarith

theorem round_zero (d : ℕ) : round 0 d = 0 := by
  unfold round
  rw [show ((0 : ℚ) * (10:ℚ)^d) = ((0 : ℤ) : ℚ) by norm_num, jsRound_intCast]
  norm_num

theorem stableInsert_perm {α : Type} (lt : α → α → Bool) (p : α) (l : List α) :
    (stableInsert lt p l).Perm (p :: l) := by
  induction l with
  | nil => simp [stableInsert]
  | cons q qs ih =>
    unfold stableInsert
    split
    · exact (ih.cons q).trans (List.Perm.swap p q qs)
    · exact List.Perm.refl _

theorem stableSort_perm {α : Type} (lt : α → α → Bool) (l : List α) :
    (stableSort lt l).Perm l := by
  induction l with
  | nil => simp [stableSort]
  | cons p ps ih => exact (stableInsert_perm lt p _).trans (ih.cons p)

theorem stableSort_of_sorted {α : Type} (lt : α → α → Bool) (l : List α)
    (h : l.Pairwise (fun a b => lt b a = false)) : stableSort lt l = l := by
  induction l with
  | nil => rfl
  | cons p ps ih =>
    have h1 := (List.pairwise_cons.mp h).1
    have h2 := (List.pairwise_cons.mp h).2
    unfold stableSort
    rw [ih h2]
    cases ps with
    | nil => rfl
    | cons q qs =>
      unfold stableInsert
      rw [h1 q (by simp)]
      simp


/-! ## Claim C3: days-of-stock -/

/-- C3 counterexample: the claim says days-of-stock is
`ceil(units / dailySales)`, but at `units = 1`, `monthlySales = 20`,
`sellerCount = 1` (so `dailySales = 2/3`) the code returns the raw
quotient `3/2`, not `⌈3/2⌉ = 2`. -/
theorem computeDaysOfStock_not_ceil :
    computeDaysOfStock 1 (computeDailySales 20 1) = 3/2 ∧
    (⌈(1 : ℚ) / computeDailySales 20 1⌉ : ℚ) = 2 ∧
    (3/2 : ℚ) ≠ 2 := by
  have h0 : computeDailySales 20 1 = 2/3 := by
    unfold computeDailySales DAYS_PER_MONTH
    norm_num
  refine ⟨?_, ?_, by norm_num⟩
  · unfold computeDaysOfStock
    rw [h0]
    norm_num
  · rw [h0, show (1 : ℚ) / (2/3) = 3/2 by norm_num]
    have hc : ⌈(3/2 : ℚ)⌉ = 2 := by
      rw [Int.ceil_eq_iff]
      constructor <;> norm_num
    rw [hc]
    norm_num

/-- C3 (amended): `computeDaysOfStock` returns the exact quotient
`units / dailySales` with no ceiling applied: with
`dailySales = monthlySales / sellerCount / 30`, for positive
`monthlySales` and `sellerCount` the result is `units * sellerCount * 30
/ monthlySales`, and it is `0` whenever `monthlySales ≤ 0` or
`sellerCount ≤ 0` (hence whenever `dailySales ≤ 0`). -/
theorem computeDaysOfStock_spec (m s u : ℚ) :
    (0 < m → 0 < s →
      computeDaysOfStock u (computeDailySales m s) = u * (s * 30) / m) ∧
    (m ≤ 0 ∨ s ≤ 0 → computeDaysOfStock u (computeDailySales m s) = 0) := by
  constructor
  · intro hm hs
    have hcond : ¬(m ≤ 0 ∨ s ≤ 0) := by push_neg; exact ⟨hm, hs⟩
    have hds : (0 : ℚ) < m / s / 30 := by positivity
    unfold computeDailySales computeDaysOfStock DAYS_PER_MONTH
    rw [if_neg hcond, if_neg (not_le.mpr hds)]
    field_simp
  · intro h
    unfold computeDailySales computeDaysOfStock
    rw [if_pos h, if_pos le_rfl]

/-- C3 witness: the amended theorem applied at `monthlySales = 20`,
`sellerCount = 1`, `units = 1`. -/
theorem computeDaysOfStock_spec_witness :
    computeDaysOfStock 1 (computeDailySales 20 1) = 3/2 := by
  have h := (computeDaysOfStock_spec 20 1 1).1 (by norm_num) (by norm_num)
  rw [h]
  norm_num

/-! ## Claim C4: currency fee -/

/-- C4 counterexample: the fee is not `0` *exactly* when `isUK` is true —
for a non-UK supplier with `costBSF = 0` the code also returns `0`. -/
theorem computeCurrencyFee_zero_not_iff_uk :
    computeCurrencyFee 0 false = 0 ∧ false ≠ true := by
  constructor
  · unfold computeCurrencyFee
    norm_num
  · simp

/-- C4 (amended): `computeCurrencyFee` returns `0` whenever `isUK` is
true or `costBSF ≤ 0`; for a non-UK supplier with positive `costBSF` it
returns `round(costBSF * 0.0067, 2)`; and it is monotone non-decreasing
in `costBSF`. -/
theorem computeCurrencyFee_spec (c c₁ c₂ : ℚ) (uk : Bool) (h : c₁ ≤ c₂) :
    (uk = true ∨ c ≤ 0 → computeCurrencyFee c uk = 0) ∧
    (uk = false → 0 < c → computeCurrencyFee c uk = round2 (c * (67/10000))) ∧
    computeCurrencyFee c₁ uk ≤ computeCurrencyFee c₂ uk := by
  refine ⟨?_, ?_, ?_⟩
  · intro hc
    unfold computeCurrencyFee
    rw [if_pos hc]
  · intro huk hc
    unfold computeCurrencyFee
    rw [if_neg]
    push_neg
    exact ⟨by simp [huk], hc⟩
  · unfold computeCurrencyFee
    split_ifs with h1 h2 h2
    · exact le_rfl
    · push_neg at h2
      have h3 : round2 (0 : ℚ) ≤ round2 (c₂ * (67/10000)) := by
        unfold round2
        exact round_mono 2 (by nlinarith [h2.2])
      unfold round2 at h3
      rw [round_zero] at h3
      exact h3
    · exfalso
      push_neg at h1
      rcases h2 with h2 | h2
      · exact h1.1 h2
      · linarith [h1.2, le_trans h h2]
    · push_neg at h1
      unfold round2
      apply round_mono
      nlinarith [h1.2]

/-- C4 witness: monotonicity and the zero/positive cases of the amended
theorem at concrete inputs `c₁ = 100`, `c₂ = 200`, non-UK. -/
theorem computeCurrencyFee_spec_witness :
    computeCurrencyFee 100 false = round2 (100 * (67/10000)) ∧
    computeCurrencyFee 100 false ≤ computeCurrencyFee 200 false := by
  have h := computeCurrencyFee_spec 100 100 200 false (by norm_num)
  exact ⟨h.2.1 rfl (by norm_num), h.2.2⟩

/-! ## Claim C9: side effects on inputs -/

theorem forall₂_curvePermRel_refl (l : List Curve) : List.Forall₂ curvePermRel l l := by
  rw [List.forall₂_same]
  intro c _
  exact ⟨rfl, rfl, List.Perm.refl _⟩

theorem updateFirstMatch_forall₂ (mode : String) (pts : List Point) :
    ∀ (curves : List Curve),
    (∀ c, curves.find? (modeMatches mode) = some c → pts.Perm c.points) →
    List.Forall₂ curvePermRel curves (updateFirstMatch mode pts curves) := by
  intro curves
  induction curves with
  | nil => intro _; exact List.Forall₂.nil
  | cons c cs ih =>
    intro h
    unfold updateFirstMatch
    by_cases hm : modeMatches mode c = true
    · rw [if_pos hm]
      have hfind : (c :: cs).find? (modeMatches mode) = some c := by
        rw [List.find?_cons_of_pos _ hm]
      exact List.Forall₂.cons ⟨rfl, rfl, h c hfind⟩ (forall₂_curvePermRel_refl cs)
    · rw [if_neg hm]
      have hrec : ∀ c', cs.find? (modeMatches mode) = some c' → pts.Perm c'.points := by
        intro c' h'
        apply h
        rw [List.find?_cons_of_neg _ (by simpa using hm)]
        exact h'
      exact List.Forall₂.cons ⟨rfl, rfl, List.Perm.refl _⟩ (ih hrec)

theorem updateFirstMatch_self (mode : String) :
    ∀ (curves : List Curve) (c : Curve),
    curves.find? (modeMatches mode) = some c →
    updateFirstMatch mode c.points curves = curves := by
  intro curves
  induction curves with
  | nil => intro c h; simp at h
  | cons c0 cs ih =>
    intro c h
    unfold updateFirstMatch
    by_cases hm : modeMatches mode c0 = true
    · rw [List.find?_cons_of_pos _ hm] at h
      rw [if_pos hm]
      cases h
      rfl
    · rw [List.find?_cons_of_neg _ (by simpa using hm)] at h
      rw [if_neg hm, ih c h]

/-- C9 counterexample: the engine is not free of side effects on its
inputs — `computeFreightFromCurve` sorts the matched curve's `points`
array in place, so after the call the caller's curve list differs. -/
theorem computeFreightFromCurveMut_mutates :
    (computeFreightFromCurveMut 5 0
        [{ freightMode := "sea", useCBM := false,
           points := [⟨2, 5⟩, ⟨1, 3⟩] }] "sea").2 ≠
      [{ freightMode := "sea", useCBM := false,
         points := [⟨2, 5⟩, ⟨1, 3⟩] }] := by
  decide

/-- C9 (amended): the only input mutation in the engine is the in-place
`curve.points.sort` of `computeFreightFromCurve`: after a call the curve
list is pointwise the input with the matched curve's points stably
sorted by `x` — in particular every post-call points array is a
permutation of the corresponding input array — and when every curve's
points were already sorted by `x` the inputs are returned unchanged. -/
theorem computeFreightFromCurveMut_spec (w cbm : ℚ) (curves : List Curve)
    (mode : String) :
    List.Forall₂ curvePermRel curves
      (computeFreightFromCurveMut w cbm curves mode).2 ∧
    ((∀ c ∈ curves, c.points.Pairwise (fun a b => a.x ≤ b.x)) →
      (computeFreightFromCurveMut w cbm curves mode).2 = curves) := by
  have key : (computeFreightFromCurveMut w cbm curves mode).2 = curves ∨
      ∃ c, curves.find? (modeMatches mode) = some c ∧
        (computeFreightFromCurveMut w cbm curves mode).2 =
          updateFirstMatch mode (stableSort pointLtX c.points) curves := by
    unfold computeFreightFromCurveMut
    by_cases h0 : curves = []
    · rw [if_pos h0]; exact Or.inl rfl
    · rw [if_neg h0]
      cases hfind : curves.find? (modeMatches mode) with
      | none => exact Or.inl rfl
      | some c =>
        dsimp only
        by_cases hpts : c.points = []
        · rw [if_pos hpts]
          exact Or.inl rfl
        · rw [if_neg hpts]
          by_cases hval : (if c.useCBM then cbm else w) ≤ 0
          · rw [if_pos hval]
            exact Or.inl rfl
          · rw [if_neg hval]
            exact Or.inr ⟨c, rfl, rfl⟩
  constructor
  · rcases key with h | ⟨c, hfind, h⟩
    · rw [h]; exact forall₂_curvePermRel_refl curves
    · rw [h]
      apply updateFirstMatch_forall₂
      intro c' hfind'
      rw [hfind] at hfind'
      cases hfind'
      exact stableSort_perm pointLtX c.points
  · intro hsorted
    rcases key with h | ⟨c, hfind, h⟩
    · exact h
    · rw [h]
      have hc : c ∈ curves := List.mem_of_find?_eq_some hfind
      have hid : stableSort pointLtX c.points = c.points := by
        apply stableSort_of_sorted
        have := hsorted c hc
        apply List.Pairwise.imp _ this
        intro a b hab
        unfold pointLtX
        simpa using not_lt.mpr hab
      rw [hid]
      exact updateFirstMatch_self mode curves c hfind

/-- C9 witness: the amended theorem applied to a concrete curve list whose
points are already sorted — the call leaves the input unchanged. -/
theorem computeFreightFromCurveMut_spec_witness :
    (computeFreightFromCurveMut 5 0
        [{ freightMode := "sea", useCBM := false,
           points := [⟨1, 3⟩, ⟨2, 5⟩] }] "sea").2 =
      [{ freightMode := "sea", useCBM := false,
         points := [⟨1, 3⟩, ⟨2, 5⟩] }] := by
  exact (computeFreightFromCurveMut_spec 5 0
    [{ freightMode := "sea", useCBM := false,
       points := [⟨1, 3⟩, ⟨2, 5⟩] }] "sea").2 (by decide)

/-! ## Claim C10: non-positive shipment metric routes to the generic model -/

/-- C10: when the matched curve's selected metric (CBM if `useCBM`, else
weight) is non-positive, `computeFreightFromCurve` returns `null` even
though a matching curve with non-empty points exists, and
`computeShipment` consequently prices the shipment with the generic rate
model (`method = "generic"`). -/
theorem computeFreightFromCurve_nonpos_metric (w cbm : ℚ) (curves : List Curve)
    (mode : String) (products : List ShipmentProduct) (s : SupplierInfo)
    (cfg : FreightConfig) (c : Curve) :
    (curves.find? (modeMatches mode) = some c → c.points ≠ [] →
      (if c.useCBM then cbm else w) ≤ 0 →
      computeFreightFromCurve w cbm curves mode = none) ∧
    (products ≠ [] → s.isUK = false → s.freightMode ≠ "" →
      curves.find? (modeMatches s.freightMode) = some c →
      (if c.useCBM then computeTotalCBM products
        else computeTotalWeight products s.packagingWeightPercent) ≤ 0 →
      (computeShipment products (some s) curves cfg).method = "generic" ∧
      (computeShipment products (some s) curves cfg).freightCost =
        round2 (computeFreightGeneric
          (computeTotalWeight products s.packagingWeightPercent)
          (computeTotalCBM products) cfg s.packagingType
          ((qceil (computeTotalWeight products s.packagingWeightPercent / 20) : ℤ) : ℚ)
          ((qceil (computeTotalCBM products / (6/5)) : ℤ) : ℚ))) := by
  have part1 : ∀ (w' cbm' : ℚ) (mode' : String),
      curves.find? (modeMatches mode') = some c →
      c.points ≠ [] → (if c.useCBM then cbm' else w') ≤ 0 →
      computeFreightFromCurve w' cbm' curves mode' = none := by
    intro w' cbm' mode' hfind hpts hval
    have hne : curves ≠ [] := by
      intro h
      rw [h] at hfind
      simp at hfind
    unfold computeFreightFromCurve computeFreightFromCurveMut
    rw [if_neg hne, hfind]
    dsimp only
    rw [if_neg hpts, if_pos hval]
  refine ⟨fun hf hp hv => part1 w cbm mode hf hp hv, ?_⟩
  intro hprod huk hmode hfind hval
  have hne : curves ≠ [] := by
    intro h
    rw [h] at hfind
    simp at hfind
  have hcnone : computeFreightFromCurve
      (computeTotalWeight products s.packagingWeightPercent)
      (computeTotalCBM products) curves s.freightMode = none := by
    by_cases hemp : c.points = []
    · unfold computeFreightFromCurve computeFreightFromCurveMut
      rw [if_neg hne, hfind]
      dsimp only
      rw [if_pos hemp]
    · exact part1 _ _ _ hfind hemp hval
  have hres : computeShipment products (some s) curves cfg =
      ⟨round2 (computeFreightGeneric
          (computeTotalWeight products s.packagingWeightPercent)
          (computeTotalCBM products) cfg s.packagingType
          ((qceil (computeTotalWeight products s.packagingWeightPercent / 20) : ℤ) : ℚ)
          ((qceil (computeTotalCBM products / (6/5)) : ℤ) : ℚ)), "generic",
        computeTotalWeight products s.packagingWeightPercent,
        computeTotalCBM products,
        ((qceil (computeTotalWeight products s.packagingWeightPercent / 20) : ℤ) : ℚ),
        ((qceil (computeTotalCBM products / (6/5)) : ℤ) : ℚ)⟩ := by
    have hdom : ¬(s.isUK = true ∧ cfg.domesticUkRatePerBox ≠ 0) := by
      intro hcontra
      rw [huk] at hcontra
      exact absurd hcontra.1 (by simp)
    unfold computeShipment
    rw [if_neg hprod]
    dsimp only
    rw [if_neg hdom,
      if_pos (show s.isUK = false ∧ curves ≠ [] ∧ s.freightMode ≠ "" from
        ⟨huk, hne, hmode⟩), hcnone]
    dsimp only
    rw [if_pos (Or.inl rfl)]
  rw [hres]
  exact ⟨rfl, rfl⟩

/-- C10 witness: a one-product shipment with zero weight, a matching
weight-based curve with points present — `computeShipment` uses the
generic model. -/
theorem computeFreightFromCurve_nonpos_metric_witness :
    (computeShipment [⟨1, 0, 1, 0, 0, 0⟩]
      (some ⟨"S", "wh", "China", "Sea", "Box", 0, 0, false⟩)
      [⟨"sea", false, [⟨1, 10⟩]⟩] ⟨0, 0, 0, 0, 0, 0, 0⟩).method = "generic" :=
  ((computeFreightFromCurve_nonpos_metric 0 0 [⟨"sea", false, [⟨1, 10⟩]⟩] "Sea"
    [⟨1, 0, 1, 0, 0, 0⟩] ⟨"S", "wh", "China", "Sea", "Box", 0, 0, false⟩
    ⟨0, 0, 0, 0, 0, 0, 0⟩ ⟨"sea", false, [⟨1, 10⟩]⟩).2
    (by decide) rfl (by decide) (by decide) (by decide)).1

/-! ## Claim C7: `findRegressionCurve` fallback to the lowest-`minKg` bucket -/

theorem findGo_inrange (w : ℚ) (pred : FreightRow → Bool) :
    ∀ (rows : List FreightRow) (fb : Option (FreightRow × ℚ)),
    (∃ r ∈ rows, pred r = true ∧ inRangeB w r = true) →
    ∃ r, findGo w pred rows fb = some r ∧ pred r = true ∧ inRangeB w r = true := by
  intro rows
  induction rows with
  | nil =>
    intro fb h
    simp at h
  | cons row rest ih =>
    intro fb h
    unfold findGo
    by_cases hp : pred row = true
    · rw [if_pos hp]
      by_cases hr : (inMinB w row && inMaxB w row) = true
      · rw [if_pos hr]
        exact ⟨row, rfl, hp, hr⟩
      · rw [if_neg hr]
        apply ih
        rcases h with ⟨r, hmem, hpr, hir⟩
        rcases List.mem_cons.mp hmem with rfl | hmem'
        · exact absurd hir hr
        · exact ⟨r, hmem', hpr, hir⟩
    · rw [if_neg hp]
      apply ih
      rcases h with ⟨r, hmem, hpr, hir⟩
      rcases List.mem_cons.mp hmem with rfl | hmem'
      · exact absurd hpr hp
      · exact ⟨r, hmem', hpr, hir⟩

theorem findGo_below (w : ℚ) (pred : FreightRow → Bool) :
    ∀ (rows : List FreightRow) (fb : Option (FreightRow × ℚ)),
    (∀ r ∈ rows, pred r = true → belowMinB w r = true) →
    (∀ p : FreightRow × ℚ, fb = some p → p.1.minKg = some p.2) →
    (fb = none → ∃ r ∈ rows, pred r = true) →
    ∃ r mk, findGo w pred rows fb = some r ∧ r.minKg = some mk ∧
      ((∃ p : FreightRow × ℚ, fb = some p ∧ r = p.1 ∧ mk = p.2) ∨
        (r ∈ rows ∧ pred r = true)) ∧
      (∀ r' ∈ rows, pred r' = true → ∀ mk', r'.minKg = some mk' → mk ≤ mk') ∧
      (∀ p : FreightRow × ℚ, fb = some p → mk ≤ p.2) := by
  intro rows
  induction rows with
  | nil =>
    intro fb hb hfb hne
    cases fb with
    | none =>
      rcases hne rfl with ⟨r, hr, _⟩
      simp at hr
    | some p =>
      refine ⟨p.1, p.2, rfl, hfb p rfl, Or.inl ⟨p, rfl, rfl, rfl⟩, ?_, ?_⟩
      · intro r' hr'
        simp at hr'
      · intro p' hp'
        cases hp'
        exact le_rfl
  | cons row rest ih =>
    intro fb hb hfb hne
    unfold findGo
    by_cases hp : pred row = true
    · rw [if_pos hp]
      have hbelow := hb row (List.mem_cons_self row rest) hp
      cases hmin : row.minKg with
      | none =>
        exfalso
        unfold belowMinB at hbelow
        rw [hmin] at hbelow
        simp at hbelow
      | some mk₀ =>
        have hw : w < mk₀ := by
          unfold belowMinB at hbelow
          rw [hmin] at hbelow
          simpa using hbelow
        have hinmin : inMinB w row = false := by
          unfold inMinB
          rw [hmin]
          simpa using not_le.mpr hw
        rw [if_neg (by rw [hinmin]; simp)]
        have hchar : (updateFallback w row fb = some (row, mk₀) ∧
              (∀ p : FreightRow × ℚ, fb = some p → mk₀ ≤ p.2)) ∨
            (∃ p : FreightRow × ℚ, fb = some p ∧
              updateFallback w row fb = some p ∧ p.2 ≤ mk₀) := by
          unfold updateFallback
          rw [hmin]
          dsimp only
          rw [if_pos hw]
          cases fb with
          | none =>
            left
            refine ⟨rfl, ?_⟩
            intro p hp'
            cases hp'
          | some p =>
            cases p with
            | mk r0 m0 =>
              dsimp only
              by_cases hlt : mk₀ < m0
              · left
                rw [if_pos hlt]
                refine ⟨rfl, ?_⟩
                intro p' hp'
                injection hp' with h'
                rw [← h']
                exact le_of_lt hlt
              · right
                rw [if_neg hlt]
                exact ⟨(r0, m0), rfl, rfl, not_lt.mp hlt⟩
        have hfb2 : ∀ p : FreightRow × ℚ,
            updateFallback w row fb = some p → p.1.minKg = some p.2 := by
          rcases hchar with ⟨heq, _⟩ | ⟨p', hfbp', heq, _⟩
          · intro p hp'
            rw [heq] at hp'
            cases hp'
            exact hmin
          · intro p hp'
            rw [heq] at hp'
            cases hp'
            exact hfb p' hfbp'
        have hne2 : updateFallback w row fb = none →
            ∃ r ∈ rest, pred r = true := by
          intro h
          rcases hchar with ⟨heq, _⟩ | ⟨p', _, heq, _⟩ <;> rw [heq] at h <;> cases h
        obtain ⟨r, mk, hgo, hmk, horigin, hminim, hfbbound⟩ :=
          ih (updateFallback w row fb)
            (fun r hr hpr => hb r (List.mem_cons_of_mem _ hr) hpr) hfb2 hne2
        refine ⟨r, mk, hgo, hmk, ?_, ?_, ?_⟩
        · rcases horigin with ⟨p, hfbp, hr, hmkp⟩ | ⟨hmem, hpr⟩
          · rcases hchar with ⟨heq, _⟩ | ⟨p', hfbp', heq, _⟩
            · rw [heq] at hfbp
              injection hfbp with h'
              right
              constructor
              · rw [hr, ← h']
                exact List.mem_cons_self _ _
              · rw [hr, ← h']
                exact hp
            · rw [heq] at hfbp
              injection hfbp with h'
              exact Or.inl ⟨p', hfbp', by rw [hr, ← h'], by rw [hmkp, ← h']⟩
          · exact Or.inr ⟨List.mem_cons_of_mem _ hmem, hpr⟩
        · intro r' hmem hpr mk' hmk'
          rcases List.mem_cons.mp hmem with rfl | hmem'
          · rw [hmin] at hmk'
            cases hmk'
            rcases hchar with ⟨heq, _⟩ | ⟨p', _, heq, hple⟩
            · exact hfbbound _ heq
            · exact le_trans (hfbbound _ heq) hple
          · exact hminim r' hmem' hpr mk' hmk'
        · intro p hfbp
          rcases hchar with ⟨heq, hge⟩ | ⟨p', hfbp', heq, _⟩
          · exact le_trans (hfbbound _ heq) (hge p hfbp)
          · rw [hfbp] at hfbp'
            cases hfbp'
            exact hfbbound _ heq
    · rw [if_neg hp]
      have hne' : fb = none → ∃ r ∈ rest, pred r = true := by
        intro h
        rcases hne h with ⟨r, hmem, hpr⟩
        rcases List.mem_cons.mp hmem with rfl | hmem'
        · exact absurd hpr hp
        · exact ⟨r, hmem', hpr⟩
      obtain ⟨r, mk, hgo, hmk, horigin, hminim, hfbbound⟩ :=
        ih fb (fun r hr hpr => hb r (List.mem_cons_of_mem _ hr) hpr) hfb hne'
      refine ⟨r, mk, hgo, hmk, ?_, ?_, hfbbound⟩
      · rcases horigin with h | ⟨hmem, hpr⟩
        · exact Or.inl h
        · exact Or.inr ⟨List.mem_cons_of_mem _ hmem, hpr⟩
      · intro r' hmem hpr mk' hmk'
        rcases List.mem_cons.mp hmem with rfl | hmem'
        · exact absurd hpr hp
        · exact hminim r' hmem' hpr mk' hmk'

/-- C7: if the weight is below every matching bucket's `minKg` and at
least one bucket matches region+mode+packaging, `findRegressionCurve`
falls back to a matching bucket with the lowest `minKg` (never `null`);
and whenever some matching bucket's `[minKg, maxKg]` range contains the
weight, an in-range matching bucket is returned instead. -/
theorem findRegressionCurve_spec (curves : List FreightRow)
    (region mode pkg : String) (w : ℚ) :
    ((∀ r ∈ curves, findPred region mode pkg r = true → belowMinB w r = true) →
      (∃ r ∈ curves, findPred region mode pkg r = true) →
      ∃ r mk, findRegressionCurve curves region mode pkg w = some r ∧
        r ∈ curves ∧ findPred region mode pkg r = true ∧ r.minKg = some mk ∧
        (∀ r' ∈ curves, findPred region mode pkg r' = true →
          ∀ mk', r'.minKg = some mk' → mk ≤ mk')) ∧
    ((∃ r ∈ curves, findPred region mode pkg r = true ∧ inRangeB w r = true) →
      ∃ r, findRegressionCurve curves region mode pkg w = some r ∧
        findPred region mode pkg r = true ∧ inRangeB w r = true) := by
  constructor
  · intro hb hex
    have hne : curves ≠ [] := by
      rcases hex with ⟨r, hr, _⟩
      intro h
      rw [h] at hr
      simp at hr
    unfold findRegressionCurve
    rw [if_neg hne]
    obtain ⟨r, mk, hgo, hmk, horigin, hminim, _⟩ :=
      findGo_below w (findPred region mode pkg) curves none hb
        (by intro p hp; cases hp) (fun _ => hex)
    rcases horigin with ⟨p, hfbp, _, _⟩ | ⟨hmem, hpr⟩
    · cases hfbp
    · exact ⟨r, mk, hgo, hmem, hpr, hmk, hminim⟩
  · intro hex
    have hne : curves ≠ [] := by
      rcases hex with ⟨r, hr, _⟩
      intro h
      rw [h] at hr
      simp at hr
    unfold findRegressionCurve
    rw [if_neg hne]
    exact findGo_inrange w (findPred region mode pkg) curves none hex

/-! ## Claim C1: the budget optimizer's budget invariant -/

theorem foldl_preserve {α β : Type} (P : β → Prop) (f : β → α → β) :
    ∀ (l : List α) (init : β), P init → (∀ b a, a ∈ l → P b → P (f b a)) →
    P (l.foldl f init) := by
  intro l
  induction l with
  | nil =>
    intro init h _
    simpa using h
  | cons a l ih =>
    intro init h hstep
    simp only [List.foldl_cons]
    exact ih (f init a) (hstep init a (List.mem_cons_self a l) h)
      (fun b x hx hb => hstep b x (List.mem_cons_of_mem a hx) hb)

theorem mem_of_mem_enum {α : Type} {l : List α} {p : ℕ × α} (h : p ∈ l.enum) :
    p.2 ∈ l := by
  have h2 := List.mem_enum_iff_getElem?.mp h
  exact List.getElem?_mem h2

theorem foldl_add_init {α : Type} (f : α → ℚ) :
    ∀ (l : List α) (init : ℚ),
    l.foldl (fun s x => s + f x) init = init + l.foldl (fun s x => s + f x) 0 := by
  intro l
  induction l with
  | nil => intro init; simp
  | cons a l ih =>
    intro init
    simp only [List.foldl_cons]
    rw [ih (init + f a), ih (0 + f a)]
    ring

theorem costSum_nil : costSum [] = 0 := rfl

theorem costSum_foldl_init :
    ∀ (l : List (ℕ × SupplierBundle)) (init : ℚ),
    l.foldl (fun s ib => s + ib.2.totalCostASF) init = init + costSum l := by
  intro l
  induction l with
  | nil =>
    intro init
    simp [costSum]
  | cons a l ih =>
    intro init
    unfold costSum
    simp only [List.foldl_cons]
    rw [ih (init + a.2.totalCostASF), ih (0 + a.2.totalCostASF)]
    ring

theorem costSum_cons (x : ℕ × SupplierBundle) (l : List (ℕ × SupplierBundle)) :
    costSum (x :: l) = x.2.totalCostASF + costSum l := by
  calc costSum (x :: l)
      = l.foldl (fun s ib => s + ib.2.totalCostASF) (0 + x.2.totalCostASF) := rfl
    _ = (0 + x.2.totalCostASF) + costSum l := costSum_foldl_init l _
    _ = x.2.totalCostASF + costSum l := by ring

theorem costSum_append_single (l : List (ℕ × SupplierBundle))
    (x : ℕ × SupplierBundle) : costSum (l ++ [x]) = costSum l + x.2.totalCostASF := by
  unfold costSum
  rw [List.foldl_append]
  simp only [List.foldl_cons, List.foldl_nil]

theorem costSum_set :
    ∀ (l : List (ℕ × SupplierBundle)) (i : ℕ) (cur repl : ℕ × SupplierBundle),
    l.get? i = some cur →
    costSum (l.set i repl) = costSum l - cur.2.totalCostASF + repl.2.totalCostASF := by
  intro l
  induction l with
  | nil =>
    intro i cur repl h
    simp at h
  | cons a l ih =>
    intro i cur repl h
    cases i with
    | zero =>
      simp only [List.get?] at h
      cases h
      simp only [List.set]
      rw [costSum_cons, costSum_cons]
      ring
    | succ n =>
      simp only [List.get?] at h
      simp only [List.set]
      rw [costSum_cons, costSum_cons, ih n cur repl h]
      ring

theorem cent_costSum :
    ∀ (l : List (ℕ × SupplierBundle)),
    (∀ ib ∈ l, Cent ib.2.totalCostASF) → Cent (costSum l) := by
  intro l
  induction l with
  | nil =>
    intro _
    rw [costSum_nil]
    exact cent_zero
  | cons a l ih =>
    intro h
    rw [costSum_cons]
    exact cent_add (h a (List.mem_cons_self a l))
      (ih (fun ib hib => h ib (List.mem_cons_of_mem a hib)))

theorem greedySelect_inv (sorted : List (ℕ × SupplierBundle))
    (bundles : List SupplierBundle) (budget : ℚ) (hb : 0 < budget)
    (hmem : ∀ ib ∈ sorted, ib.2 ∈ bundles) :
    GInv bundles budget (greedySelect sorted budget) := by
  unfold greedySelect
  apply foldl_preserve (GInv bundles budget)
  · refine ⟨by simp, ?_, hb.le⟩
    rw [costSum_nil]
    ring
  · intro st ib hib hst
    by_cases hfits : ib.2.totalCostASF ≤ st.2
    · rw [if_pos hfits]
      refine ⟨?_, ?_, ?_⟩
      · intro jb hjb
        rcases List.mem_append.mp hjb with h | h
        · exact hst.1 jb h
        · simp at h
          subst h
          exact hmem _ hib
      · show st.2 - ib.2.totalCostASF = budget - costSum (st.1 ++ [ib])
        rw [costSum_append_single, hst.2.1]
        ring
      · show (0 : ℚ) ≤ st.2 - ib.2.totalCostASF
        linarith
    · rw [if_neg hfits]
      exact hst

theorem improveStep_inv (sorted : List (ℕ × SupplierBundle))
    (bundles : List SupplierBundle) (budget : ℚ)
    (hmem : ∀ ib ∈ sorted, ib.2 ∈ bundles) (i : ℕ)
    (st : List (ℕ × SupplierBundle) × ℚ) (hst : GInv bundles budget st) :
    GInv bundles budget (improveStep sorted i st.1 st.2) := by
  unfold improveStep
  cases hget : st.1.get? i with
  | none => exact hst
  | some cur =>
    dsimp only
    cases hfind : sorted.find? (fun ib =>
      decide (ib.2.totalCostASF ≤ st.2 + cur.2.totalCostASF) &&
      decide (cur.2.totalCostASF < ib.2.totalCostASF) &&
      decide (cur.2.monthlyROI ≤ ib.2.monthlyROI) &&
      !((st.1.map Prod.fst).contains ib.1)) with
    | none => exact hst
    | some repl =>
      have hprop := List.find?_some hfind
      have hreplmem := List.mem_of_find?_eq_some hfind
      simp only [Bool.and_eq_true, decide_eq_true_eq] at hprop
      obtain ⟨⟨⟨hle, _⟩, _⟩, _⟩ := hprop
      refine ⟨?_, ?_, ?_⟩
      · intro jb hjb
        rcases List.mem_or_eq_of_mem_set hjb with h | h
        · exact hst.1 jb h
        · subst h
          exact hmem _ hreplmem
      · show st.2 + cur.2.totalCostASF - repl.2.totalCostASF =
          budget - costSum (st.1.set i repl)
        rw [costSum_set st.1 i cur repl hget, hst.2.1]
        ring
      · show (0 : ℚ) ≤ st.2 + cur.2.totalCostASF - repl.2.totalCostASF
        linarith

theorem improveGo_inv (sorted : List (ℕ × SupplierBundle))
    (bundles : List SupplierBundle) (budget : ℚ)
    (hmem : ∀ ib ∈ sorted, ib.2 ∈ bundles) :
    ∀ (i : ℕ) (st : List (ℕ × SupplierBundle) × ℚ), GInv bundles budget st →
    GInv bundles budget (improveGo sorted i st.1 st.2) := by
  intro i
  induction i with
  | zero =>
    intro st hst
    exact improveStep_inv sorted bundles budget hmem 0 st hst
  | succ n ih =>
    intro st hst
    unfold improveGo
    dsimp only
    exact ih (improveStep sorted (n + 1) st.1 st.2)
      (improveStep_inv sorted bundles budget hmem (n + 1) st hst)

theorem greedyFinal_inv (sorted : List (ℕ × SupplierBundle))
    (bundles : List SupplierBundle) (budget : ℚ) (hb : 0 < budget)
    (hmem : ∀ ib ∈ sorted, ib.2 ∈ bundles) :
    GInv bundles budget (greedyFinal sorted budget) := by
  unfold greedyFinal
  dsimp only
  split_ifs with h
  · exact improveGo_inv sorted bundles budget hmem _ _
      (greedySelect_inv sorted bundles budget hb hmem)
  · exact greedySelect_inv sorted bundles budget hb hmem

theorem greedyOptimization_le_budget (bundles : List SupplierBundle)
    (budget : ℚ) (hb : 0 < budget)
    (hcent : ∀ b ∈ bundles, Cent b.totalCostASF) :
    (greedyOptimization bundles budget).totalCostASF ≤ budget := by
  have hmem : ∀ ib ∈ stableSort bundleRoiDesc bundles.enum, ib.2 ∈ bundles :=
    fun ib hib =>
      mem_of_mem_enum (((stableSort_perm bundleRoiDesc bundles.enum).mem_iff).mp hib)
  have hinv := greedyFinal_inv (stableSort bundleRoiDesc bundles.enum)
    bundles budget hb hmem
  unfold greedyOptimization
  dsimp only
  by_cases hemp : (greedyFinal (stableSort bundleRoiDesc bundles.enum) budget).1 = []
  · rw [if_pos hemp]
    exact hb.le
  · rw [if_neg hemp]
    show round2 (costSum (greedyFinal (stableSort bundleRoiDesc bundles.enum)
      budget).1) ≤ budget
    have hcentc : Cent (costSum (greedyFinal (stableSort bundleRoiDesc
        bundles.enum) budget).1) :=
      cent_costSum _ (fun ib hib => hcent ib.2 (hinv.1 ib hib))
    rw [round2_cent hcentc]
    have h2 := hinv.2.1
    have h3 := hinv.2.2
    linarith

theorem subsetEval_le (bundles : List SupplierBundle) (budget : ℚ)
    (hb : 0 < budget) (hcent : ∀ b ∈ bundles, Cent b.totalCostASF)
    (mask : ℕ) :
    ∀ t : ℚ × ℚ × ℚ × List SupplierBundle,
    subsetEval bundles budget mask = some t → t.1 ≤ budget ∧ Cent t.1 := by
  unfold subsetEval
  apply foldl_preserve (fun acc => ∀ t : ℚ × ℚ × ℚ × List SupplierBundle,
    acc = some t → t.1 ≤ budget ∧ Cent t.1)
  · intro t h
    cases h
    exact ⟨hb.le, cent_zero⟩
  · intro acc ib hib hP
    cases acc with
    | none =>
      intro t h
      cases h
    | some q =>
      obtain ⟨c0, p0, w0, s0⟩ := q
      dsimp only
      by_cases hbit : mask.testBit ib.1
      · rw [if_pos hbit]
        by_cases hfit : c0 + ib.2.totalCostASF ≤ budget
        · rw [if_pos hfit]
          intro t h
          cases h
          exact ⟨hfit, cent_add (hP (c0, p0, w0, s0) rfl).2
            (hcent ib.2 (mem_of_mem_enum hib))⟩
        · rw [if_neg hfit]
          intro t h
          cases h
      · rw [if_neg hbit]
        exact hP

theorem exhaustiveGo_le (bundles : List SupplierBundle) (budget : ℚ)
    (hb : 0 < budget) (hcent : ∀ b ∈ bundles, Cent b.totalCostASF) :
    ∀ t : ℚ × List SupplierBundle × ℚ × ℚ,
    exhaustiveGo bundles budget = some t → t.2.2.1 ≤ budget ∧ Cent t.2.2.1 := by
  unfold exhaustiveGo
  apply foldl_preserve (fun best => ∀ t : ℚ × List SupplierBundle × ℚ × ℚ,
    best = some t → t.2.2.1 ≤ budget ∧ Cent t.2.2.1)
  · intro t h
    cases h
  · intro best mask _ hP
    by_cases hm : mask = 0
    · rw [if_pos hm]
      exact hP
    · rw [if_neg hm]
      cases heval : subsetEval bundles budget mask with
      | none => exact hP
      | some q =>
        obtain ⟨cost, profit, wsum, sel⟩ := q
        dsimp only
        by_cases hcond : cost ≤ budget ∧ 0 < cost
        · rw [if_pos hcond]
          have hsub := subsetEval_le bundles budget hb hcent mask
            (cost, profit, wsum, sel) heval
          cases best with
          | none =>
            intro t h
            cases h
            exact ⟨hcond.1, hsub.2⟩
          | some b4 =>
            obtain ⟨bv, bsel, bc, bp⟩ := b4
            dsimp only
            by_cases hsc : bv < (if 0 < cost then wsum / cost else 0) * 1000 +
                cost / budget * 100
            · rw [if_pos hsc]
              intro t h
              cases h
              exact ⟨hcond.1, hsub.2⟩
            · rw [if_neg hsc]
              exact hP
        · rw [if_neg hcond]
          exact hP

theorem exhaustiveSearch_le_budget (bundles : List SupplierBundle)
    (budget : ℚ) (hb : 0 < budget)
    (hcent : ∀ b ∈ bundles, Cent b.totalCostASF) :
    (exhaustiveSearch bundles budget).totalCostASF ≤ budget := by
  unfold exhaustiveSearch
  cases hgo : exhaustiveGo bundles budget with
  | none => exact hb.le
  | some t =>
    obtain ⟨v, sel, bestCost, bestProfit⟩ := t
    have h := exhaustiveGo_le bundles budget hb hcent
      (v, sel, bestCost, bestProfit) hgo
    dsimp only
    show round2 bestCost ≤ budget
    rw [round2_cent h.2]
    exact h.1

/-- C1 counterexample: with one bundle costing `99.999` and a budget of
exactly `99.999`, the optimizer's reported `totalCostASF` is the
2-decimal rounding `100.00 > budget`. -/
theorem optimizeGlobalBudget_exceeds_budget :
    (99999/1000 : ℚ) <
      (optimizeGlobalBudget [⟨"s", "S", [], 99999/1000, 0, 0, 0, 0⟩]
        (99999/1000)).totalCostASF := by
  decide

/-- C1 (amended): for every positive budget and every bundle list whose
costs are whole numbers of hundredths (as every upstream 2-decimal
rounded `totalCostASF` is), the allocation returned by
`optimizeGlobalBudget` — through the exhaustive path (≤ 20 candidates)
or the greedy-plus-swap path — has `totalCostASF ≤ budget`.  (Without
the hundredths assumption the un-rounded selected cost is still within
budget, but the reported rounded field can exceed it by up to half a
cent, see the counterexample.) -/
theorem optimizeGlobalBudget_le_budget (bundles : List SupplierBundle)
    (budget : ℚ) (hb : 0 < budget)
    (hcent : ∀ b ∈ bundles, Cent b.totalCostASF) :
    (optimizeGlobalBudget bundles budget).totalCostASF ≤ budget := by
  unfold optimizeGlobalBudget
  dsimp only
  split_ifs with h1 h2 h3
  · exact hb.le
  · exact hb.le
  · exact exhaustiveSearch_le_budget _ _ hb
      (fun b hbm => hcent b (List.mem_of_mem_filter hbm))
  · exact greedyOptimization_le_budget _ _ hb
      (fun b hbm => hcent b (List.mem_of_mem_filter hbm))

/-- C1 witness: the amended theorem at a one-bundle input with cost 50
and budget 100. -/
theorem optimizeGlobalBudget_le_budget_witness :
    (optimizeGlobalBudget [⟨"s", "S", [], 50, 10, 2, 0, 0⟩] 100).totalCostASF
      ≤ 100 := by
  apply optimizeGlobalBudget_le_budget _ 100 (by norm_num)
  intro b hbm
  simp at hbm
  subst hbm
  exact ⟨5000, by norm_num⟩

/-! ## Claim C8: case-size options -/

theorem cent_nat_mul (k : ℕ) {q : ℚ} (h : Cent q) : Cent ((k : ℚ) * q) := by
  obtain ⟨m, rfl⟩ := h
  exact ⟨(k : ℤ) * m, by push_cast; ring⟩

theorem buildOptionsGo_mem (cs cc mb : ℚ) :
    ∀ (fuel start : ℕ) (o : CaseOption), o ∈ buildOptionsGo cs cc mb fuel start →
    ∃ k : ℕ, start ≤ k ∧ o.cases = k ∧ o.units = (k : ℚ) * cs ∧
      o.costBSF = round2 ((k : ℚ) * cc) ∧ (k : ℚ) * cc ≤ mb := by
  intro fuel
  induction fuel with
  | zero =>
    intro start o h
    simp [buildOptionsGo] at h
  | succ n ih =>
    intro start o h
    unfold buildOptionsGo at h
    by_cases hbr : mb < (start : ℚ) * cc
    · rw [if_pos hbr] at h
      simp at h
    · rw [if_neg hbr] at h
      rcases List.mem_cons.mp h with rfl | h'
      · exact ⟨start, le_refl _, rfl, rfl, rfl, not_lt.mp hbr⟩
      · obtain ⟨k, hk1, hk⟩ := ih (start + 1) o h'
        exact ⟨k, le_trans (Nat.le_succ _) hk1, hk⟩

theorem buildOptionsGo_length (cs cc mb : ℚ) :
    ∀ (fuel start : ℕ), (buildOptionsGo cs cc mb fuel start).length ≤ fuel := by
  intro fuel
  induction fuel with
  | zero => intro start; simp [buildOptionsGo]
  | succ n ih =>
    intro start
    unfold buildOptionsGo
    by_cases hbr : mb < (start : ℚ) * cc
    · rw [if_pos hbr]
      simp
    · rw [if_neg hbr]
      simpa using Nat.succ_le_succ (ih (start + 1))

/-- C8 counterexample: the claim says every returned option's `costBSF`
is at most the budget; with a sub-cent supplier price (`99.999`) and
exactly matching budget, the stored `costBSF` is rounded up to `100`,
strictly exceeding the budget. -/
theorem buildCaseSizeOptions_costBSF_exceeds :
    ∃ o ∈ buildCaseSizeOptions
      ⟨"A1", "sup", "Sup", "item", 99999/1000, 150, 20, 0, 0, 0, 3000, 1, 1,
        none, none, none, none, none, ⟨0, 14⟩, ""⟩ (99999/1000),
      (99999/1000 : ℚ) < o.costBSF := by decide

/-- C8 (amended): for a product with `caseSize ≥ 1` and positive
`supplierPrice`, every option's `units` is a positive multiple of the
case size with the *un-rounded* cost within budget, at most 20 options
are returned, the stored 2-decimal `costBSF` is within budget whenever
the case cost is a whole number of hundredths (in general it can round
up to half a cent above), and if one case's cost already exceeds the
budget the option list is empty. -/
theorem buildCaseSizeOptions_spec (product : EngineProduct) (budget : ℚ)
    (hc : 1 ≤ product.caseSize) (hp : 0 < product.supplierPrice) :
    (∀ o ∈ buildCaseSizeOptions product budget, ∃ k : ℕ, 1 ≤ k ∧
      o.units = (k : ℚ) * product.caseSize ∧
      (k : ℚ) * (product.supplierPrice * product.caseSize) ≤ budget) ∧
    (buildCaseSizeOptions product budget).length ≤ 20 ∧
    (Cent (product.supplierPrice * product.caseSize) →
      ∀ o ∈ buildCaseSizeOptions product budget, o.costBSF ≤ budget) ∧
    (budget < product.supplierPrice * product.caseSize →
      buildCaseSizeOptions product budget = []) := by
  have hcs0 : ¬(product.caseSize = 0) := by
    intro h
    rw [h] at hc
    norm_num at hc
  have hcspos : 0 < product.caseSize := lt_of_lt_of_le one_pos hc
  have hccpos : 0 < product.supplierPrice * product.caseSize :=
    mul_pos hp hcspos
  refine ⟨?_, ?_, ?_, ?_⟩
  · intro o ho
    simp only [buildCaseSizeOptions, if_neg hcs0, if_neg (not_le.mpr hp)] at ho
    obtain ⟨k, hk1, _, hu, _, hcost⟩ := buildOptionsGo_mem _ _ _ _ _ o ho
    exact ⟨k, hk1, hu, hcost⟩
  · simp only [buildCaseSizeOptions, if_neg hcs0, if_neg (not_le.mpr hp)]
    refine le_trans (buildOptionsGo_length _ _ _ _ _) ?_
    calc (min (min (qfloor (budget / (product.supplierPrice * product.caseSize)))
          _) 20).toNat
        ≤ ((20 : ℤ)).toNat := Int.toNat_le_toNat (min_le_right _ _)
      _ = 20 := rfl
  · intro hcent o ho
    simp only [buildCaseSizeOptions, if_neg hcs0, if_neg (not_le.mpr hp)] at ho
    obtain ⟨k, _, _, _, hbsf, hcost⟩ := buildOptionsGo_mem _ _ _ _ _ o ho
    rw [hbsf, round2_cent (cent_nat_mul k hcent)]
    exact hcost
  · intro hover
    simp only [buildCaseSizeOptions, if_neg hcs0, if_neg (not_le.mpr hp)]
    have hfl : qfloor (budget / (product.supplierPrice * product.caseSize)) ≤ 0 := by
      rw [qfloor_eq]
      have hlt : budget / (product.supplierPrice * product.caseSize) < 1 :=
        (div_lt_one hccpos).mpr hover
      have h1 : ⌊budget / (product.supplierPrice * product.caseSize)⌋ < 1 := by
        rw [Int.floor_lt]
        push_cast
        exact hlt
      omega
    have hm : min (min (qfloor (budget / (product.supplierPrice * product.caseSize)))
        (qfloor ((if 0 < computeDailySales product.monthlySales product.sellerCount
          then ((qfloor (computeDailySales product.monthlySales product.sellerCount * 90) : ℤ) : ℚ)
          else ((qfloor (budget / (product.supplierPrice * product.caseSize)) : ℤ) : ℚ) *
            product.caseSize) / product.caseSize))) 20 ≤ 0 :=
      le_trans (le_trans (min_le_left _ _) (min_le_left _ _)) hfl
    rw [Int.toNat_of_nonpos hm]
    rfl

/-- C8 witness: the amended theorem at a concrete in-range product
(`supplierPrice = 10`, `caseSize = 1`) and budget 100. -/
theorem buildCaseSizeOptions_spec_witness :
    (buildCaseSizeOptions
      ⟨"A1", "sup", "Sup", "item", 10, 150, 20, 0, 0, 0, 3000, 1, 1,
        none, none, none, none, none, ⟨0, 14⟩, ""⟩ 100).length ≤ 20 ∧
    (∀ o ∈ buildCaseSizeOptions
      ⟨"A1", "sup", "Sup", "item", 10, 150, 20, 0, 0, 0, 3000, 1, 1,
        none, none, none, none, none, ⟨0, 14⟩, ""⟩ 100, o.costBSF ≤ 100) := by
  have h := buildCaseSizeOptions_spec
    ⟨"A1", "sup", "Sup", "item", 10, 150, 20, 0, 0, 0, 3000, 1, 1,
      none, none, none, none, none, ⟨0, 14⟩, ""⟩ 100 (by norm_num) (by norm_num)
  exact ⟨h.2.1, h.2.2.1 ⟨1000, by norm_num⟩⟩

/-- C7 witness: two matching "eu"/"sea"/"Box" buckets with `minKg` 10 and
5, weight 1 below both — the bucket with `minKg = 5` is returned. -/
theorem findRegressionCurve_spec_witness :
    ∃ r mk, findRegressionCurve
        [⟨"eu", "sea", "Box", some 10, some 20⟩,
         ⟨"eu", "sea", "Box", some 5, some 9⟩] "EU" "Sea" "Box" 1 = some r ∧
      r ∈ [(⟨"eu", "sea", "Box", some 10, some 20⟩ : FreightRow),
           ⟨"eu", "sea", "Box", some 5, some 9⟩] ∧
      findPred "EU" "Sea" "Box" r = true ∧ r.minKg = some mk ∧
      (∀ r' ∈ [(⟨"eu", "sea", "Box", some 10, some 20⟩ : FreightRow),
               ⟨"eu", "sea", "Box", some 5, some 9⟩],
        findPred "EU" "Sea" "Box" r' = true →
        ∀ mk', r'.minKg = some mk' → mk ≤ mk') :=
  (findRegressionCurve_spec
    [⟨"eu", "sea", "Box", some 10, some 20⟩,
     ⟨"eu", "sea", "Box", some 5, some 9⟩] "EU" "Sea" "Box" 1).1
    (by decide) (by decide)

/-! ## Claim C2: exclusion of non-positive price/sales products -/

theorem stage1Clean_pos (praw : RawProduct) (p : StageProduct)
    (h : stage1Clean praw = some p) :
    0 < p.supplierPrice ∧ 0 < p.monthlySales := by
  unfold stage1Clean at h
  cases hsp : praw.supplierPrice with
  | none =>
    rw [hsp] at h
    cases h
  | some sp =>
    rw [hsp] at h
    dsimp only at h
    by_cases h1 : stage1Key praw = "" ∨ sp ≤ 0
    · rw [if_pos h1] at h
      cases h
    · rw [if_neg h1] at h
      push_neg at h1
      cases hms : praw.monthlySales with
      | none =>
        rw [hms] at h
        cases h
      | some ms =>
        rw [hms] at h
        dsimp only at h
        by_cases h2 : ms ≤ 0
        · rw [if_pos h2] at h
          cases h
        · rw [if_neg h2, if_pos h1.2] at h
          injection h with h4
          subst h4
          exact ⟨h1.2, not_le.mp h2⟩

theorem processOne_pos (m : List (String × SupplierInfo)) (d : DimsTable)
    (cs : List (String × ChurnRaw)) (pr : RawV3Product) (p : EngineProduct)
    (h : processOne m d cs pr = some p) :
    0 < p.supplierPrice ∧ 0 < p.monthlySales := by
  unfold processOne at h
  dsimp only at h
  by_cases h0 : jsTrim (jsToUpper pr.asin) = "" ∨
      normalizeSupplierKey (jsTrim pr.supplier) = ""
  · rw [if_pos h0] at h
    cases h
  · rw [if_neg h0] at h
    cases hsp : pr.supplierPrice with
    | none =>
      rw [hsp] at h
      cases h
    | some sp =>
      rw [hsp] at h
      dsimp only at h
      by_cases h1 : sp ≤ 0
      · rw [if_pos h1] at h
        cases h
      · rw [if_neg h1] at h
        cases hms : pr.monthlySales with
        | none =>
          rw [hms] at h
          cases h
        | some ms =>
          rw [hms] at h
          dsimp only at h
          by_cases h2 : ms ≤ 0
          · rw [if_pos h2] at h
            cases h
          · rw [if_neg h2] at h
            injection h with h3
            subst h3
            exact ⟨not_le.mp h1, not_le.mp h2⟩

theorem groupByKey_pred {α : Type} (key : α → String) (Q : α → Prop)
    (ps : List α) (hQ : ∀ p ∈ ps, Q p) :
    ∀ kv ∈ groupByKey key ps, ∀ p ∈ kv.2, Q p := by
  unfold groupByKey
  apply foldl_preserve (fun acc : List (String × List α) =>
    ∀ kv ∈ acc, ∀ p ∈ kv.2, Q p)
  · intro kv hkv
    cases hkv
  · intro acc a ha hP
    by_cases hany : acc.any (fun kv => kv.1 == key a) = true
    · rw [if_pos hany]
      intro kv hkv p hp
      rcases List.mem_map.mp hkv with ⟨kv0, hkv0, rfl⟩
      by_cases heq : (kv0.1 == key a) = true
      · rw [if_pos heq] at hp
        dsimp only at hp
        rcases List.mem_append.mp hp with h | h
        · exact hP kv0 hkv0 p h
        · rw [List.mem_singleton] at h
          rw [h]
          exact hQ a ha
      · rw [if_neg heq] at hp
        exact hP kv0 hkv0 p hp
    · rw [if_neg hany]
      intro kv hkv p hp
      rcases List.mem_append.mp hkv with h | h
      · exact hP kv h p hp
      · rw [List.mem_singleton] at h
        subst h
        dsimp only at hp
        rw [List.mem_singleton] at hp
        rw [hp]
        exact hQ a ha

theorem bestByRoi_mem (l : List OptItem) :
    ∀ it, bestByRoi l = some it → it ∈ l := by
  unfold bestByRoi
  apply foldl_preserve (fun acc : Option OptItem =>
    ∀ it, acc = some it → it ∈ l)
  · intro it h
    cases h
  · intro acc a ha hP
    cases acc with
    | none =>
      intro it h
      dsimp only at h
      injection h with h'
      subst h'
      exact ha
    | some b =>
      dsimp only
      by_cases hcmp : b.option.monthlyROI < a.option.monthlyROI
      · rw [if_pos hcmp]
        intro it h
        injection h with h'
        subst h'
        exact ha
      · rw [if_neg hcmp]
        intro it h
        injection h with h'
        subst h'
        exact hP b rfl

theorem combineStep_products (Q : OptItem → Prop)
    (si : Option SupplierInfo) (fcs : List Curve) (cfg : FreightConfig)
    (mb moq : ℚ) (cur cand : IBundle)
    (hcur : ∀ it ∈ cur.products, Q it)
    (hcand : ∀ it ∈ cand.products, Q it) :
    ∀ it ∈ (combineStep si fcs cfg mb moq cur cand).products, Q it := by
  unfold combineStep
  dsimp only
  split_ifs <;>
    first
      | exact hcur
      | (intro it hit
         dsimp only at hit
         rcases List.mem_append.mp hit with h | h
         exacts [hcur it h, hcand it h])

theorem buildMulti_products (Q : OptItem → Prop)
    (si : Option SupplierInfo) (fcs : List Curve) (cfg : FreightConfig)
    (mb moq : ℚ) (singlesSorted : List IBundle)
    (hs : ∀ ib ∈ singlesSorted, ∀ it ∈ ib.products, Q it) :
    ∀ ib ∈ buildMulti si fcs cfg mb moq singlesSorted,
    ∀ it ∈ ib.products, Q it := by
  unfold buildMulti
  apply foldl_preserve (fun acc : List IBundle =>
    ∀ ib ∈ acc, ∀ it ∈ ib.products, Q it)
  · intro ib hib
    cases hib
  · intro acc i hi hP
    dsimp only
    cases hget : singlesSorted.get? i with
    | none =>
      exact hP
    | some base =>
      dsimp only
      have hinner : ∀ it ∈ (singlesSorted.enum.foldl (fun cur jc =>
          if jc.1 = i then cur
          else combineStep si fcs cfg mb moq cur jc.2)
          ⟨base.products, base.totalCostASF, base.totalProfit,
            base.monthlyROI, base.freightCost, base.currencyFee,
            0⟩).products, Q it := by
        apply foldl_preserve (fun cur : IBundle => ∀ it ∈ cur.products, Q it)
        · exact hs base (List.get?_mem hget)
        · intro cur jc hjc hcur
          by_cases hji : jc.1 = i
          · rw [if_pos hji]
            exact hcur
          · rw [if_neg hji]
            exact combineStep_products Q si fcs cfg mb moq cur jc.2 hcur
              (hs jc.2 (mem_of_mem_enum hjc))
      split_ifs with hmoq
      · intro ib hib
        rcases List.mem_append.mp hib with h | h
        · exact hP ib h
        · rw [List.mem_singleton] at h
          subst h
          exact hinner
      · exact hP

theorem subsetEval_mem (bundles : List SupplierBundle) (budget : ℚ)
    (mask : ℕ) :
    ∀ t : ℚ × ℚ × ℚ × List SupplierBundle,
    subsetEval bundles budget mask = some t → ∀ b ∈ t.2.2.2, b ∈ bundles := by
  unfold subsetEval
  apply foldl_preserve (fun acc => ∀ t : ℚ × ℚ × ℚ × List SupplierBundle,
    acc = some t → ∀ b ∈ t.2.2.2, b ∈ bundles)
  · intro t h
    cases h
    intro b hb
    cases hb
  · intro acc ib hib hP
    cases acc with
    | none =>
      intro t h
      cases h
    | some q =>
      obtain ⟨c0, p0, w0, s0⟩ := q
      dsimp only
      by_cases hbit : mask.testBit ib.1
      · rw [if_pos hbit]
        by_cases hfit : c0 + ib.2.totalCostASF ≤ budget
        · rw [if_pos hfit]
          intro t h
          cases h
          intro b hb
          rcases List.mem_append.mp hb with h' | h'
          · exact hP (c0, p0, w0, s0) rfl b h'
          · rw [List.mem_singleton] at h'
            subst h'
            exact mem_of_mem_enum hib
        · rw [if_neg hfit]
          intro t h
          cases h
      · rw [if_neg hbit]
        exact hP

theorem exhaustiveGo_mem (bundles : List SupplierBundle) (budget : ℚ) :
    ∀ t : ℚ × List SupplierBundle × ℚ × ℚ,
    exhaustiveGo bundles budget = some t → ∀ b ∈ t.2.1, b ∈ bundles := by
  unfold exhaustiveGo
  apply foldl_preserve (fun best => ∀ t : ℚ × List SupplierBundle × ℚ × ℚ,
    best = some t → ∀ b ∈ t.2.1, b ∈ bundles)
  · intro t h
    cases h
  · intro best mask _ hP
    by_cases hm : mask = 0
    · rw [if_pos hm]
      exact hP
    · rw [if_neg hm]
      cases heval : subsetEval bundles budget mask with
      | none => exact hP
      | some q =>
        obtain ⟨cost, profit, wsum, sel⟩ := q
        dsimp only
        by_cases hcond : cost ≤ budget ∧ 0 < cost
        · rw [if_pos hcond]
          have hsub := subsetEval_mem bundles budget mask
            (cost, profit, wsum, sel) heval
          cases best with
          | none =>
            intro t h
            cases h
            exact hsub
          | some b4 =>
            obtain ⟨bv, bsel, bc, bp⟩ := b4
            dsimp only
            by_cases hsc : bv < (if 0 < cost then wsum / cost else 0) * 1000 +
                cost / budget * 100
            · rw [if_pos hsc]
              intro t h
              cases h
              exact hsub
            · rw [if_neg hsc]
              intro t h
              cases h
              exact hP (bv, bsel, bc, bp) rfl
        · rw [if_neg hcond]
          exact hP

theorem exhaustiveSearch_mem (bundles : List SupplierBundle) (budget : ℚ) :
    ∀ b ∈ (exhaustiveSearch bundles budget).bundles, b ∈ bundles := by
  unfold exhaustiveSearch
  cases hgo : exhaustiveGo bundles budget with
  | none =>
    intro b hb
    cases hb
  | some t =>
    obtain ⟨v, sel, bestCost, bestProfit⟩ := t
    dsimp only
    exact exhaustiveGo_mem bundles budget (v, sel, bestCost, bestProfit) hgo

theorem greedyOptimization_mem (bundles : List SupplierBundle) (budget : ℚ)
    (hb : 0 < budget) :
    ∀ b ∈ (greedyOptimization bundles budget).bundles, b ∈ bundles := by
  have hmem : ∀ ib ∈ stableSort bundleRoiDesc bundles.enum, ib.2 ∈ bundles :=
    fun ib hib =>
      mem_of_mem_enum
        (((stableSort_perm bundleRoiDesc bundles.enum).mem_iff).mp hib)
  have hinv := greedyFinal_inv (stableSort bundleRoiDesc bundles.enum)
    bundles budget hb hmem
  unfold greedyOptimization
  dsimp only
  by_cases hemp :
      (greedyFinal (stableSort bundleRoiDesc bundles.enum) budget).1 = []
  · rw [if_pos hemp]
    intro b hbm
    cases hbm
  · rw [if_neg hemp]
    intro b hbm
    rcases List.mem_map.mp hbm with ⟨ib, hib, rfl⟩
    exact hinv.1 ib hib

theorem optimizeGlobalBudget_mem (bundles : List SupplierBundle)
    (budget : ℚ) :
    ∀ b ∈ (optimizeGlobalBudget bundles budget).bundles, b ∈ bundles := by
  unfold optimizeGlobalBudget
  dsimp only
  split_ifs with h1 h2 h3
  · intro b hb
    cases hb
  · intro b hb
    cases hb
  · intro b hb
    exact List.mem_of_mem_filter (exhaustiveSearch_mem _ budget b hb)
  · push_neg at h1
    intro b hb
    exact List.mem_of_mem_filter
      (greedyOptimization_mem _ budget h1.2 b hb)

theorem stage1Choose_pos (moq : ℚ) (l : List StageProduct)
    (hl : ∀ p ∈ l, 0 < p.supplierPrice ∧ 0 < p.monthlySales) :
    ∀ q ∈ (stage1Choose moq l).2.2.2,
    0 < q.supplierPrice ∧ 0 < q.monthlySales := by
  unfold stage1Choose
  apply foldl_preserve (fun acc : ℚ × ℚ × ℚ × List StageProduct =>
    ∀ q ∈ acc.2.2.2, 0 < q.supplierPrice ∧ 0 < q.monthlySales)
  · intro q hq
    cases hq
  · intro acc p hp hP
    dsimp only
    split_ifs <;>
      first
        | exact hP
        | (intro q hq
           dsimp only at hq
           rcases List.mem_append.mp hq with h | h
           · exact hP q h
           · rw [List.mem_singleton] at h
             rw [h]
             exact hl p hp)

theorem stage1OutBlocks_pos (s : PipelineState) :
    ∀ blk ∈ stage1OutBlocks s, ∀ p ∈ blk.products,
    0 < p.supplierPrice ∧ 0 < p.monthlySales := by
  intro blk hblk p hp
  unfold stage1OutBlocks at hblk
  cases hres : stage1_moqBlocks s with
  | error e =>
    rw [hres] at hblk
    cases hblk
  | ok s1 =>
    rw [hres] at hblk
    dsimp only at hblk
    unfold stage1_moqBlocks at hres
    dsimp only at hres
    by_cases hprod : s.data.products = []
    · rw [if_pos hprod] at hres
      cases hres
    · rw [if_neg hprod] at hres
      injection hres with hres'
      subst hres'
      unfold stage1Blocks at hblk
      dsimp only at hblk
      have hclean : ∀ q ∈ s.data.products.filterMap stage1Clean,
          0 < q.supplierPrice ∧ 0 < q.monthlySales := by
        intro q hq
        rcases List.mem_filterMap.mp hq with ⟨praw, hpraw, hcl⟩
        exact stage1Clean_pos praw q hcl
      have hgroup := groupByKey_pred (fun q : StageProduct => q.supplierKey)
        (fun q => 0 < q.supplierPrice ∧ 0 < q.monthlySales)
        (s.data.products.filterMap stage1Clean) hclean
      have hblk2 := (stableSort_perm (fun q p : MoqBlock =>
        decide (blockAvgRoi p < blockAvgRoi q)) _).mem_iff.mp hblk
      rcases List.mem_filterMap.mp hblk2 with ⟨kv, hkv, hbl⟩
      unfold stage1BlockOf at hbl
      dsimp only at hbl
      split_ifs at hbl with hch
      all_goals
        injection hbl with hbl'
        subst hbl'
        dsimp only at hp
        refine stage1Choose_pos _ _ ?_ p hp
        intro q hq
        exact hgroup kv hkv q ((stableSort_perm _ _).mem_iff.mp hq)

theorem buildSupplierBundles_rows (products : List EngineProduct)
    (si : Option SupplierInfo) (fcs : List Curve) (cfg : FreightConfig)
    (cc : ChurnConfig) (mb moq : ℚ)
    (hpos : ∀ p ∈ products, 0 < p.supplierPrice ∧ 0 < p.monthlySales) :
    ∀ b ∈ buildSupplierBundles products si fcs cfg cc mb moq,
    ∀ r ∈ b.products, 0 < r.supplierPrice ∧ 0 < r.monthlySales := by
  cases products with
  | nil =>
    intro b hb
    cases hb
  | cons p0 rest =>
    have hopts : ∀ l ∈ productOptionsOf (p0 :: rest) si fcs cfg cc mb,
        ∀ it ∈ l,
        0 < it.product.supplierPrice ∧ 0 < it.product.monthlySales := by
      intro l hl it hit
      unfold productOptionsOf at hl
      rcases List.mem_map.mp (List.mem_of_mem_filter hl) with
        ⟨product, hprod, rfl⟩
      rcases List.mem_map.mp hit with ⟨o, ho, rfl⟩
      exact hpos product hprod
    have hsingles : ∀ ib ∈ (productOptionsOf (p0 :: rest) si fcs cfg cc
        mb).filterMap (singleBundleOf moq),
        ∀ it ∈ ib.products,
        0 < it.product.supplierPrice ∧ 0 < it.product.monthlySales := by
      intro ib hib it hit
      rcases List.mem_filterMap.mp hib with ⟨l, hl, hf⟩
      unfold singleBundleOf at hf
      cases hbr : bestByRoi l with
      | none =>
        rw [hbr] at hf
        cases hf
      | some best =>
        rw [hbr] at hf
        dsimp only at hf
        split_ifs at hf with hm
        injection hf with hf'
        subst hf'
        dsimp only at hit
        rw [List.mem_singleton] at hit
        subst hit
        exact hopts l hl it (bestByRoi_mem l it hbr)
    have hsorted : ∀ ib ∈ stableSort
        (fun q p : IBundle => decide (p.monthlyROI < q.monthlyROI))
        ((productOptionsOf (p0 :: rest) si fcs cfg cc mb).filterMap
          (singleBundleOf moq)),
        ∀ it ∈ ib.products,
        0 < it.product.supplierPrice ∧ 0 < it.product.monthlySales := by
      intro ib hib
      exact hsingles ib ((stableSort_perm _ _).mem_iff.mp hib)
    intro b hb r hr
    unfold buildSupplierBundles at hb
    dsimp only at hb
    rcases List.mem_map.mp hb with ⟨bundle, hbundle, rfl⟩
    dsimp only at hr
    rcases List.mem_map.mp hr with ⟨item, hitem, rfl⟩
    have hItem : 0 < item.product.supplierPrice ∧
        0 < item.product.monthlySales := by
      have htake := List.take_subset 8 _ hbundle
      have hcomb := (stableSort_perm _ _).mem_iff.mp htake
      rcases List.mem_append.mp hcomb with h | h
      · exact hsorted bundle h item hitem
      · exact buildMulti_products _ si fcs cfg mb moq _ hsorted bundle h
          item hitem
    exact hItem

theorem engineBundles_rows (input : V3Input) :
    ∀ b ∈ engineBundles input, ∀ r ∈ b.products,
    0 < r.supplierPrice ∧ 0 < r.monthlySales := by
  intro b hb r hr
  unfold engineBundles at hb
  cases hgen : generateWSPlanV3Allocation input with
  | error e =>
    rw [hgen] at hb
    cases hb
  | ok a =>
    rw [hgen] at hb
    dsimp only at hb
    unfold generateWSPlanV3Allocation at hgen
    dsimp only at hgen
    split_ifs at hgen with hg1 hg2 hg3
    · injection hgen with hgen'
      subst hgen'
      exact absurd hb (List.not_mem_nil b)
    · injection hgen with hgen'
      subst hgen'
      have hproc : ∀ p ∈ input.products.filterMap
          (processOne (buildSupplierMap input.suppliers) input.dims
            input.churnSettings),
          0 < p.supplierPrice ∧ 0 < p.monthlySales := by
        intro p hp
        rcases List.mem_filterMap.mp hp with ⟨pr, hpr, hpo⟩
        exact processOne_pos _ _ _ pr p hpo
      have hgroups := groupByKey_pred
        (fun p : EngineProduct => p.supplierKey)
        (fun p => 0 < p.supplierPrice ∧ 0 < p.monthlySales) _ hproc
      have hmemall := optimizeGlobalBudget_mem _ _ b hb
      refine foldl_preserve (fun acc : List SupplierBundle =>
        ∀ b' ∈ acc, ∀ r' ∈ b'.products,
          0 < r'.supplierPrice ∧ 0 < r'.monthlySales) _ _ _ ?_ ?_ b
        hmemall r hr
      · intro b' hb'
        cases hb'
      · intro acc kv hkv hP
        dsimp only
        cases hkv2 : kv.2 with
        | nil =>
          exact hP
        | cons q0 qs =>
          dsimp only
          intro b' hb'
          rcases List.mem_append.mp hb' with h | h
          · exact hP b' h
          · have hkvpos := hgroups kv hkv
            rw [hkv2] at hkvpos
            exact buildSupplierBundles_rows (q0 :: qs) _ _ _ _ _ _
              hkvpos b' h

/-- C2: a product with non-positive `supplierPrice` or non-positive
`monthlySales` appears in no engine output: every product row of every
bundle of the monolithic v3 allocation, and every product of every MOQ
block built by pipeline stage 1, has strictly positive `supplierPrice`
and `monthlySales` (both paths filter such products out up front). -/
theorem engine_excludes_nonpositive :
    (∀ input : V3Input, ∀ b ∈ engineBundles input, ∀ r ∈ b.products,
      0 < r.supplierPrice ∧ 0 < r.monthlySales) ∧
    (∀ s : PipelineState, ∀ blk ∈ stage1OutBlocks s, ∀ p ∈ blk.products,
      0 < p.supplierPrice ∧ 0 < p.monthlySales) :=
  ⟨engineBundles_rows, stage1OutBlocks_pos⟩

set_option maxRecDepth 100000 in
/-- C2 witness: the theorem at the concrete engine input `viW` (whose
allocation contains the bundle `bunW` with row `rowW`) and at the
pipeline state `psRun` (whose stage 1 builds the block `blkW` containing
`sp0`). -/
theorem engine_excludes_nonpositive_witness :
    (0 < rowW.supplierPrice ∧ 0 < rowW.monthlySales) ∧
    (0 < sp0.supplierPrice ∧ 0 < sp0.monthlySales) :=
  ⟨engine_excludes_nonpositive.1 viW bunW (by decide) rowW (by decide),
   engine_excludes_nonpositive.2 psRun blkW (by decide) sp0 (by decide)⟩

/-! ## Claim C6: stage errors -/

/-- C6 counterexample: the claim says every stage 1–8 raises a fatal
error when the budget input is non-positive, but stage 3 (like stages 1,
2, 5 and 8) never reads the budget: on a state with non-empty
`stage2.blocks` and budget `-1` it succeeds. -/
theorem stage3_ok_on_nonpositive_budget :
    psNeg.inputs.budget ≤ 0 ∧ isOkE (stage3_rankSuppliers psNeg) = true := by
  exact ⟨by decide, by decide⟩

/-- C6 (amended): every stage 1–8 raises a fatal error whose message
names the stage when its required upstream output is empty; stages 4, 6
and 7 additionally validate the budget and raise a stage-named error
when it is non-positive; but stages 1, 2, 3, 5 and 8 do not check the
budget at all — with non-empty upstream they succeed even on a
non-positive budget (so the spec's "or budget is non-positive" part
holds only for stages 4, 6 and 7). -/
theorem pipeline_stage_errors (s : PipelineState) :
    (s.data.products = [] → stage1_moqBlocks s =
      .error "[Stage 1] No products available in state.data.products.") ∧
    (stage1Blocks s = [] → stage2_estimatedAsf s =
      .error "[Stage 2] No MOQ blocks from stage1.moqBlocks.") ∧
    (stage2Blocks s = [] → stage3_rankSuppliers s =
      .error "[Stage 3] No blocks found in stage2.blocks.") ∧
    (stage3Ranked s = [] → stage4_allocateBudget s =
      .error "[Stage 4] No ranked suppliers from stage3.rankedSuppliers.") ∧
    (stage3Ranked s ≠ [] → s.inputs.budget ≤ 0 → stage4_allocateBudget s =
      .error "[Stage 4] inputs.budget must be a positive number.") ∧
    (stage4Selected s = [] → stage5_exactAsf s =
      .error "[Stage 5] No selected suppliers from stage4.selectedSuppliers.") ∧
    (stage5Suppliers s = [] → stage6_reallocateCases s =
      .error "[Stage 6] No suppliers in stage5.suppliers.") ∧
    (stage5Suppliers s ≠ [] → s.inputs.budget ≤ 0 → stage6_reallocateCases s =
      .error "[Stage 6] inputs.budget must be a positive number.") ∧
    (stage6Cases s = [] → stage7_supplierSubstitution s =
      .error "[Stage 7] No case-level allocation in stage6.cases.") ∧
    (stage6Cases s ≠ [] → s.inputs.budget ≤ 0 → stage7_supplierSubstitution s =
      .error "[Stage 7] inputs.budget must be a positive number.") ∧
    (stage6Cases s = [] → stage8_finalize s =
      .error "[Stage 8] No cases in stage6.cases to finalise.") ∧
    (s.data.products ≠ [] → isOkE (stage1_moqBlocks s) = true) ∧
    (stage1Blocks s ≠ [] → isOkE (stage2_estimatedAsf s) = true) ∧
    (stage2Blocks s ≠ [] → isOkE (stage3_rankSuppliers s) = true) ∧
    (stage4Selected s ≠ [] → isOkE (stage5_exactAsf s) = true) ∧
    (stage6Cases s ≠ [] → isOkE (stage8_finalize s) = true) := by
  refine ⟨?_, ?_, ?_, ?_, ?_, ?_, ?_, ?_, ?_, ?_, ?_, ?_, ?_, ?_, ?_, ?_⟩
  · intro h
    unfold stage1_moqBlocks
    dsimp only
    rw [if_pos h]
  · intro h
    unfold stage2_estimatedAsf
    dsimp only
    rw [if_pos h]
  · intro h
    unfold stage3_rankSuppliers
    dsimp only
    rw [if_pos h]
  · intro h
    unfold stage4_allocateBudget
    dsimp only
    rw [if_pos h]
  · intro h hb
    unfold stage4_allocateBudget
    dsimp only
    rw [if_neg h, if_pos hb]
  · intro h
    unfold stage5_exactAsf
    dsimp only
    rw [if_pos h]
  · intro h
    unfold stage6_reallocateCases
    dsimp only
    rw [if_pos h]
  · intro h hb
    unfold stage6_reallocateCases
    dsimp only
    rw [if_neg h, if_pos hb]
  · intro h
    unfold stage7_supplierSubstitution
    dsimp only
    rw [if_pos h]
  · intro h hb
    unfold stage7_supplierSubstitution
    dsimp only
    rw [if_neg h, if_pos hb]
  · intro h
    unfold stage8_finalize
    dsimp only
    rw [if_pos h]
  · intro h
    unfold stage1_moqBlocks
    dsimp only
    rw [if_neg h]
    rfl
  · intro h
    unfold stage2_estimatedAsf
    dsimp only
    rw [if_neg h]
    rfl
  · intro h
    unfold stage3_rankSuppliers
    dsimp only
    rw [if_neg h]
    rfl
  · intro h
    unfold stage5_exactAsf
    dsimp only
    rw [if_neg h]
    rfl
  · intro h
    unfold stage8_finalize
    dsimp only
    rw [if_neg h]
    rfl

/-- C6 witness: the amended theorem at a state with empty upstream
(every stage raises its stage-named error) and at a fully-populated
state with budget `-1` (stages 4, 6, 7 raise the budget error; stages
1, 2, 3, 5 and 8 succeed). -/
theorem pipeline_stage_errors_witness :
    stage1_moqBlocks psEmpty =
      .error "[Stage 1] No products available in state.data.products." ∧
    stage2_estimatedAsf psEmpty =
      .error "[Stage 2] No MOQ blocks from stage1.moqBlocks." ∧
    stage3_rankSuppliers psEmpty =
      .error "[Stage 3] No blocks found in stage2.blocks." ∧
    stage4_allocateBudget psEmpty =
      .error "[Stage 4] No ranked suppliers from stage3.rankedSuppliers." ∧
    stage5_exactAsf psEmpty =
      .error "[Stage 5] No selected suppliers from stage4.selectedSuppliers." ∧
    stage6_reallocateCases psEmpty =
      .error "[Stage 6] No suppliers in stage5.suppliers." ∧
    stage7_supplierSubstitution psEmpty =
      .error "[Stage 7] No case-level allocation in stage6.cases." ∧
    stage8_finalize psEmpty =
      .error "[Stage 8] No cases in stage6.cases to finalise." ∧
    stage4_allocateBudget psNeg =
      .error "[Stage 4] inputs.budget must be a positive number." ∧
    stage6_reallocateCases psNeg =
      .error "[Stage 6] inputs.budget must be a positive number." ∧
    stage7_supplierSubstitution psNeg =
      .error "[Stage 7] inputs.budget must be a positive number." ∧
    isOkE (stage1_moqBlocks psNeg) = true ∧
    isOkE (stage2_estimatedAsf psNeg) = true ∧
    isOkE (stage3_rankSuppliers psNeg) = true ∧
    isOkE (stage5_exactAsf psNeg) = true ∧
    isOkE (stage8_finalize psNeg) = true := by
  obtain ⟨e1, e2, e3, e4, -, e5, e6, -, e7, -, e8, -, -, -, -, -⟩ :=
    pipeline_stage_errors psEmpty
  obtain ⟨-, -, -, -, c4, -, -, c6, -, c7, -, m1, m2, m3, m5, m8⟩ :=
    pipeline_stage_errors psNeg
  exact ⟨e1 rfl, e2 rfl, e3 rfl, e4 rfl, e5 rfl, e6 rfl, e7 rfl, e8 rfl,
    c4 (by decide) (by decide), c6 (by decide) (by decide),
    c7 (by decide) (by decide), m1 (by decide), m2 (by decide),
    m3 (by decide), m5 (by decide), m8 (by decide)⟩

/-! ## Claim C5: stage 7 frame, stage 8 source -/

/-- C5: on a state with non-empty `stage6.cases` and positive budget,
stage 7 succeeds and writes only its before/after metrics record into
the `stage7` slot, leaving every other slot (in particular `stage6`)
unchanged; and stage 8's output record is computed solely from
`stage6.cases` and the budget: any state agreeing on those two values
receives the identical `stage8` output. -/
theorem stage7_frame_stage8_from_stage6 (s t : PipelineState)
    (h6 : stage6Cases s ≠ []) (hb : 0 < s.inputs.budget)
    (hcases : stage6Cases s = stage6Cases t)
    (hbud : s.inputs.budget = t.inputs.budget) :
    (∃ out : Stage7Out, stage7_supplierSubstitution s =
      .ok { s with stage7 := some out }) ∧
    ∃ o8 : Stage8Out,
      stage8_finalize s = .ok { s with stage8 := some o8 } ∧
      stage8_finalize t = .ok { t with stage8 := some o8 } := by
  have ht6 : stage6Cases t ≠ [] := hcases ▸ h6
  constructor
  · unfold stage7_supplierSubstitution
    dsimp only
    rw [if_neg h6, if_neg (not_le.mpr hb)]
    exact ⟨_, rfl⟩
  · refine ⟨stage8Compute (stage6Cases s) s.inputs.budget, ?_, ?_⟩
    · unfold stage8_finalize
      dsimp only
      rw [if_neg h6]
    · unfold stage8_finalize
      dsimp only
      rw [if_neg ht6, hcases, hbud]

/-- C5 witness: the theorem at the one-case state `psRun` and its
sibling `psRunB` agreeing only on the stage-6 cases and the budget. -/
theorem stage7_frame_stage8_from_stage6_witness :
    (∃ out : Stage7Out, stage7_supplierSubstitution psRun =
      .ok { psRun with stage7 := some out }) ∧
    ∃ o8 : Stage8Out,
      stage8_finalize psRun = .ok { psRun with stage8 := some o8 } ∧
      stage8_finalize psRunB = .ok { psRunB with stage8 := some o8 } :=
  stage7_frame_stage8_from_stage6 psRun psRunB (by decide) (by decide)
    (by decide) (by decide)

end SmartBuys
